import Mathlib

/-!
# noobflow: XDP flow accounting (`noobflow.c`)

A shallow embedding of the packet parsers of `noobflow.c` and of the two
flow tables `flows0` / `flows1` they write to.

* A packet (`struct xdp_md *ctx`) is the list of its bytes; `data_end - data`
  is the length of the list, and a byte read is taken modulo 256.
* The fields of `flow_attrs` that are filled by `memcpy` from the wire
  (`__be32 src_ip`, `__be16 src_port`, ...) are represented by the big-endian
  value of the bytes they hold, so a field holding the bytes `[a, b]` is
  `a * 256 + b`.
* `u64` arithmetic is taken modulo `2 ^ 64`, the `uint16_t bytes` local
  modulo `2 ^ 16`.
* `bpf_ktime_get_ns()` is the argument `ktime` of each parser.
* `MAPSIZE` and `XDPACTION` are compile-time macros supplied by the loader;
  they are arguments of the definitions that use them.
* One core's partition of each per-cpu table is modelled.
-/

namespace Noobflow

/-! ## Constants of the kernel headers and of `noobflow.c` -/

abbrev ICMP : Nat := 1
abbrev TCP : Nat := 6
abbrev UDP : Nat := 17

abbrev XDP_DROP : Nat := 1
abbrev XDP_PASS : Nat := 2

abbrev ETH_P_IP : Nat := 0x0800
abbrev ETH_P_IPV6 : Nat := 0x86DD
abbrev ETH_P_8021Q : Nat := 0x8100
abbrev ETH_P_8021AD : Nat := 0x88A8

abbrev sizeof_ethhdr : Nat := 14
abbrev sizeof_iphdr : Nat := 20
abbrev sizeof_ipv6hdr : Nat := 40
abbrev sizeof_icmphdr : Nat := 8
abbrev sizeof_tcphdr : Nat := 20
abbrev sizeof_udphdr : Nat := 8

/-! ## Data model -/

/-- The flow key `struct flow_attrs`. -/
structure flow_attrs where
  l2_proto : Nat
  l4_proto : Nat
  src_ip : Nat
  dst_ip : Nat
  src_port : Nat
  dst_port : Nat
  deriving DecidableEq, Repr

/-- The accumulator `struct flow_accms`; `end_` is the C field `end`. -/
structure flow_accms where
  start : Nat
  end_ : Nat
  packets : Nat
  bytes : Nat
  deriving DecidableEq, Repr

/-- A packet buffer: the bytes between `ctx->data` and `ctx->data_end`. -/
abbrev Packet := List Nat

/-- One byte of the packet at offset `i` from `data`. -/
def byte_at (ctx : Packet) (i : Nat) : Nat := ctx.getD i 0 % 256

/-- The two bytes at offset `i`, as the big-endian number they spell. -/
def be16_at (ctx : Packet) (i : Nat) : Nat := byte_at ctx i * 256 + byte_at ctx (i + 1)

/-- The four bytes at offset `i`, as the big-endian number they spell. -/
def be32_at (ctx : Packet) (i : Nat) : Nat :=
  ((byte_at ctx i * 256 + byte_at ctx (i + 1)) * 256 + byte_at ctx (i + 2)) * 256
    + byte_at ctx (i + 3)

/-- One core's partition of a `percpu_hash` table: its entries, newest first. -/
abbrev Table := List (flow_attrs × flow_accms)

/-- The accumulator stored for a key (`bpf_map_lookup_elem`), if any. -/
def Table.lookup : Table → flow_attrs → Option flow_accms
  | [], _ => none
  | (k', a) :: rest, k => if k' = k then some a else Table.lookup rest k

/-- A write through the pointer to the entry of key `k`. -/
def Table.update : Table → flow_attrs → (flow_accms → flow_accms) → Table
  | [], _, _ => []
  | (k', a) :: rest, k, f =>
    if k' = k then (k', f a) :: rest else (k', a) :: Table.update rest k f

/-- Modelled from the spec: the table primitive `lookup_or_try_init` of the BPF
hash map, which is not part of `noobflow.c`. If the key has an entry the table
is returned as it is; otherwise an entry with the given initial accumulator is
inserted when fewer than `MAPSIZE` entries are held, and the call fails (`none`,
the `NULL` pointer) when the table is at capacity. On success the returned
pointer designates the entry of `k` in the returned table. -/
def lookup_or_try_init (MAPSIZE : Nat) (t : Table) (k : flow_attrs) (init : flow_accms) :
    Option Table :=
  match t.lookup k with
  | some _ => some t
  | none => if t.length < MAPSIZE then some ((k, init) :: t) else none

/-- The state the programs act on: the two tables and the trace pipe written by
`bpf_trace_printk`. -/
structure State where
  flows0 : Table
  flows1 : Table
  trace : List String
  deriving DecidableEq, Repr

/-- A BPF program: packet and clock reading in, XDP action and new state out. -/
abbrev Prog := Packet → Nat → State → Nat × State

/-! ## The programs -/

/-- The program `null_parser` of the source. -/
def null_parser_prog : Prog := fun _ _ s => (XDP_PASS, s)

/-- The program `parse_ipv4_flows0`. -/
def parse_ipv4_flows0 (MAPSIZE XDPACTION : Nat) : Prog := fun ctx ktime s =>
  let p : flow_attrs := ⟨0, 0, 0, 0, 0, 0⟩
  let offset := sizeof_ethhdr
  if offset + sizeof_iphdr > ctx.length then (XDP_DROP, s) else
  let iph := offset
  let offset := offset + sizeof_iphdr
  let bytes := (ctx.length % 2 ^ 32) % 2 ^ 16
  let p := { p with l2_proto := ETH_P_IP,
                    src_ip := be32_at ctx (iph + 12),
                    dst_ip := be32_at ctx (iph + 16) }
  let proto := byte_at ctx (iph + 9)
  let l4 : Option flow_attrs :=
    if proto = ICMP ∧ offset + sizeof_icmphdr < ctx.length then
      some { p with l4_proto := ICMP,
                    src_port := byte_at ctx offset * 256,
                    dst_port := byte_at ctx (offset + 1) * 256 }
    else if proto = TCP ∧ offset + sizeof_tcphdr < ctx.length then
      some { p with l4_proto := TCP,
                    src_port := be16_at ctx offset,
                    dst_port := be16_at ctx (offset + 2) }
    else if proto = UDP ∧ offset + sizeof_udphdr < ctx.length then
      some { p with l4_proto := UDP,
                    src_port := be16_at ctx offset,
                    dst_port := be16_at ctx (offset + 2) }
    else none
  match l4 with
  | none => (XDPACTION, s)
  | some p =>
    let now := ktime % 2 ^ 64
    let accms : flow_accms := ⟨now, 0, 0, 0⟩
    match lookup_or_try_init MAPSIZE s.flows0 p accms with
    | some t =>
      (XDPACTION, { s with flows0 := t.update p (fun a =>
        { a with packets := (a.packets + 1) % 2 ^ 64,
                 bytes := (a.bytes + bytes) % 2 ^ 64,
                 end_ := (now + 1) % 2 ^ 64 }) })
    | none => (XDPACTION, s)

/-- The program `parse_ipv4_flows1`. -/
def parse_ipv4_flows1 (MAPSIZE XDPACTION : Nat) : Prog := fun ctx ktime s =>
  let p : flow_attrs := ⟨0, 0, 0, 0, 0, 0⟩
  let offset := sizeof_ethhdr
  if offset + sizeof_iphdr > ctx.length then (XDP_DROP, s) else
  let iph := offset
  let offset := offset + sizeof_iphdr
  let bytes := (ctx.length % 2 ^ 32) % 2 ^ 16
  let p := { p with l2_proto := ETH_P_IP,
                    src_ip := be32_at ctx (iph + 12),
                    dst_ip := be32_at ctx (iph + 16) }
  let proto := byte_at ctx (iph + 9)
  let l4 : Option flow_attrs :=
    if proto = ICMP ∧ offset + sizeof_icmphdr < ctx.length then
      some { p with l4_proto := ICMP,
                    src_port := byte_at ctx offset * 256,
                    dst_port := byte_at ctx (offset + 1) * 256 }
    else if proto = TCP ∧ offset + sizeof_tcphdr < ctx.length then
      some { p with l4_proto := TCP,
                    src_port := be16_at ctx offset,
                    dst_port := be16_at ctx (offset + 2) }
    else if proto = UDP ∧ offset + sizeof_udphdr < ctx.length then
      some { p with l4_proto := UDP,
                    src_port := be16_at ctx offset,
                    dst_port := be16_at ctx (offset + 2) }
    else none
  match l4 with
  | none => (XDPACTION, s)
  | some p =>
    let now := ktime % 2 ^ 64
    let accms : flow_accms := ⟨now, 0, 0, 0⟩
    match lookup_or_try_init MAPSIZE s.flows1 p accms with
    | some t =>
      (XDPACTION, { s with flows1 := t.update p (fun a =>
        { a with packets := (a.packets + 1) % 2 ^ 64,
                 bytes := (a.bytes + bytes) % 2 ^ 64,
                 end_ := (now + 1) % 2 ^ 64 }) })
    | none => (XDPACTION, s)

/-- The program `parse_ipv6_flows0`. -/
def parse_ipv6_flows0 (MAPSIZE XDPACTION : Nat) : Prog := fun ctx ktime s =>
  let p : flow_attrs := ⟨0, 0, 0, 0, 0, 0⟩
  let offset := sizeof_ethhdr
  if offset + sizeof_ipv6hdr > ctx.length then (XDP_DROP, s) else
  let ip6h := offset
  let offset := offset + sizeof_ipv6hdr
  let bytes := (ctx.length % 2 ^ 32) % 2 ^ 16
  let p := { p with l2_proto := ETH_P_IPV6,
                    src_ip := be32_at ctx (ip6h + 8),
                    dst_ip := be32_at ctx (ip6h + 24) }
  let proto := byte_at ctx (ip6h + 6)
  let l4 : Option flow_attrs :=
    if proto = ICMP ∧ offset + sizeof_icmphdr < ctx.length then
      some { p with l4_proto := ICMP,
                    src_port := byte_at ctx offset * 256,
                    dst_port := byte_at ctx (offset + 1) * 256 }
    else if proto = TCP ∧ offset + sizeof_tcphdr < ctx.length then
      some { p with l4_proto := TCP,
                    src_port := be16_at ctx offset,
                    dst_port := be16_at ctx (offset + 2) }
    else if proto = UDP ∧ offset + sizeof_udphdr < ctx.length then
      some { p with l4_proto := UDP,
                    src_port := be16_at ctx offset,
                    dst_port := be16_at ctx (offset + 2) }
    else none
  match l4 with
  | none => (XDPACTION, s)
  | some p =>
    let now := ktime % 2 ^ 64
    let accms : flow_accms := ⟨now, 0, 0, 0⟩
    match lookup_or_try_init MAPSIZE s.flows0 p accms with
    | some t =>
      (XDPACTION, { s with flows0 := t.update p (fun a =>
        { a with packets := (a.packets + 1) % 2 ^ 64,
                 bytes := (a.bytes + bytes) % 2 ^ 64,
                 end_ := (now + 1) % 2 ^ 64 }) })
    | none => (XDPACTION, s)

/-- The program `parse_ipv6_flows1`. -/
def parse_ipv6_flows1 (MAPSIZE XDPACTION : Nat) : Prog := fun ctx ktime s =>
  let p : flow_attrs := ⟨0, 0, 0, 0, 0, 0⟩
  let offset := sizeof_ethhdr
  if offset + sizeof_ipv6hdr > ctx.length then (XDP_DROP, s) else
  let ip6h := offset
  let offset := offset + sizeof_ipv6hdr
  let bytes := (ctx.length % 2 ^ 32) % 2 ^ 16
  let p := { p with l2_proto := ETH_P_IPV6,
                    src_ip := be32_at ctx (ip6h + 8),
                    dst_ip := be32_at ctx (ip6h + 24) }
  let proto := byte_at ctx (ip6h + 6)
  let l4 : Option flow_attrs :=
    if proto = ICMP ∧ offset + sizeof_icmphdr < ctx.length then
      some { p with l4_proto := ICMP,
                    src_port := byte_at ctx offset * 256,
                    dst_port := byte_at ctx (offset + 1) * 256 }
    else if proto = TCP ∧ offset + sizeof_tcphdr < ctx.length then
      some { p with l4_proto := TCP,
                    src_port := be16_at ctx offset,
                    dst_port := be16_at ctx (offset + 2) }
    else if proto = UDP ∧ offset + sizeof_udphdr < ctx.length then
      some { p with l4_proto := UDP,
                    src_port := be16_at ctx offset,
                    dst_port := be16_at ctx (offset + 2) }
    else none
  match l4 with
  | none => (XDPACTION, s)
  | some p =>
    let now := ktime % 2 ^ 64
    let accms : flow_accms := ⟨now, 0, 0, 0⟩
    match lookup_or_try_init MAPSIZE s.flows1 p accms with
    | some t =>
      (XDPACTION, { s with flows1 := t.update p (fun a =>
        { a with packets := (a.packets + 1) % 2 ^ 64,
                 bytes := (a.bytes + bytes) % 2 ^ 64,
                 end_ := (now + 1) % 2 ^ 64 }) })
    | none => (XDPACTION, s)

/-- The program array `parse_layer3` (`BPF_PROG_ARRAY(parse_layer3, 7)`): seven
slots, each empty or holding a program; an index outside the array is empty. -/
abbrev ProgArray := Nat → Option Prog

/-- The tail call `parse_layer3.call(ctx, idx)`: when slot `idx` (below 7) holds a
program, control passes to it and its result is the result of the whole
invocation; otherwise the call falls through and `fallthrough` is the result. -/
def tail_call (parse_layer3 : ProgArray) (idx : Nat) (ctx : Packet) (ktime : Nat) (s : State)
    (fallthrough : Nat × State) : Nat × State :=
  if idx < 7 then
    match parse_layer3 idx with
    | some prog => prog ctx ktime s
    | none => fallthrough
  else fallthrough

/-- The program `xdp_parser` of the source. `htons` of a constant compared with the `__be16`
field `h_proto` compares the constant with the big-endian value of the field. -/
def xdp_parser_prog (parse_layer3 : ProgArray) : Prog := fun ctx ktime s =>
  if sizeof_ethhdr > ctx.length then (XDP_DROP, s) else
  let ether_be := be16_at ctx 12
  if ether_be = ETH_P_IP then
    tail_call parse_layer3 4 ctx ktime s (XDP_DROP, s)
  else if ether_be = ETH_P_IPV6 then
    tail_call parse_layer3 6 ctx ktime s (XDP_DROP, s)
  else if ether_be = ETH_P_8021Q ∨ ether_be = ETH_P_8021AD then
    (XDP_DROP, { s with trace := s.trace ++ ["Received Ethertype VLAN!"] })
  else
    (XDP_DROP, { s with trace := s.trace ++ ["IPv4/IPv6/VLAN Ethertypes were not hit!"] })

/-! ## The four layer-3 parsers as one family -/

/-- The L4 stage that every L3 parser runs inline: the key completed with the L4
protocol and the port pair, or `none` when the protocol is not ICMP, TCP or UDP
or its header does not end strictly before `data_end`. -/
def l4_key (p : flow_attrs) (ctx : Packet) (offset proto : Nat) : Option flow_attrs :=
  if proto = ICMP ∧ offset + sizeof_icmphdr < ctx.length then
    some { p with l4_proto := ICMP,
                  src_port := byte_at ctx offset * 256,
                  dst_port := byte_at ctx (offset + 1) * 256 }
  else if proto = TCP ∧ offset + sizeof_tcphdr < ctx.length then
    some { p with l4_proto := TCP,
                  src_port := be16_at ctx offset,
                  dst_port := be16_at ctx (offset + 2) }
  else if proto = UDP ∧ offset + sizeof_udphdr < ctx.length then
    some { p with l4_proto := UDP,
                  src_port := be16_at ctx offset,
                  dst_port := be16_at ctx (offset + 2) }
  else none

/-- The key `parse_ipv4_flows0` / `parse_ipv4_flows1` hand to the table, if any. -/
def ipv4_key (ctx : Packet) : Option flow_attrs :=
  if sizeof_ethhdr + sizeof_iphdr > ctx.length then none
  else l4_key ⟨ETH_P_IP, 0, be32_at ctx 26, be32_at ctx 30, 0, 0⟩ ctx 34 (byte_at ctx 23)

/-- The key `parse_ipv6_flows0` / `parse_ipv6_flows1` hand to the table, if any. -/
def ipv6_key (ctx : Packet) : Option flow_attrs :=
  if sizeof_ethhdr + sizeof_ipv6hdr > ctx.length then none
  else l4_key ⟨ETH_P_IPV6, 0, be32_at ctx 22, be32_at ctx 38, 0, 0⟩ ctx 54 (byte_at ctx 20)

/-- The three writes through `flow_ptr`, for a clock reading `ktime` and a packet
of `len` bytes. -/
def accms_bump (ktime len : Nat) (a : flow_accms) : flow_accms :=
  { a with packets := (a.packets + 1) % 2 ^ 64,
           bytes := (a.bytes + (len % 2 ^ 32) % 2 ^ 16) % 2 ^ 64,
           end_ := (ktime % 2 ^ 64 + 1) % 2 ^ 64 }

/-- The table after `lookup_or_try_init` and the writes through its result; the
table as it was when the call fails. -/
def flow_upsert (MAPSIZE : Nat) (t : Table) (p : flow_attrs) (ktime len : Nat) : Table :=
  match lookup_or_try_init MAPSIZE t p ⟨ktime % 2 ^ 64, 0, 0, 0⟩ with
  | some t' => t'.update p (accms_bump ktime len)
  | none => t

/-- The four layer-3 parser programs. -/
inductive L3 where
  | ipv4_flows0
  | ipv4_flows1
  | ipv6_flows0
  | ipv6_flows1
  deriving DecidableEq, Repr

/-- The program of a parser. -/
def L3.prog (MAPSIZE XDPACTION : Nat) : L3 → Prog
  | .ipv4_flows0 => parse_ipv4_flows0 MAPSIZE XDPACTION
  | .ipv4_flows1 => parse_ipv4_flows1 MAPSIZE XDPACTION
  | .ipv6_flows0 => parse_ipv6_flows0 MAPSIZE XDPACTION
  | .ipv6_flows1 => parse_ipv6_flows1 MAPSIZE XDPACTION

/-- The table a parser writes to. -/
def L3.table : L3 → State → Table
  | .ipv4_flows0, s => s.flows0
  | .ipv4_flows1, s => s.flows1
  | .ipv6_flows0, s => s.flows0
  | .ipv6_flows1, s => s.flows1

/-- The state with the table a parser writes to replaced. -/
def L3.set_table : L3 → State → Table → State
  | .ipv4_flows0, s, t => { s with flows0 := t }
  | .ipv4_flows1, s, t => { s with flows1 := t }
  | .ipv6_flows0, s, t => { s with flows0 := t }
  | .ipv6_flows1, s, t => { s with flows1 := t }

/-- The key a parser derives from a packet, if any. -/
def L3.key : L3 → Packet → Option flow_attrs
  | .ipv4_flows0, ctx => ipv4_key ctx
  | .ipv4_flows1, ctx => ipv4_key ctx
  | .ipv6_flows0, ctx => ipv6_key ctx
  | .ipv6_flows1, ctx => ipv6_key ctx

/-- The offset at which the L3 base header of a parser ends (`14 + 20` for IPv4,
`14 + 40` for IPv6): the offset of the L4 header. -/
def L3.l4_offset : L3 → Nat
  | .ipv4_flows0 => sizeof_ethhdr + sizeof_iphdr
  | .ipv4_flows1 => sizeof_ethhdr + sizeof_iphdr
  | .ipv6_flows0 => sizeof_ethhdr + sizeof_ipv6hdr
  | .ipv6_flows1 => sizeof_ethhdr + sizeof_ipv6hdr

/-- The offset of the next-protocol byte a parser reads (`iph->protocol` at
`14 + 9`, `ip6h->nexthdr` at `14 + 6`). -/
def L3.proto_offset : L3 → Nat
  | .ipv4_flows0 => 23
  | .ipv4_flows1 => 23
  | .ipv6_flows0 => 20
  | .ipv6_flows1 => 20

/-- A run of one parser over a sequence of packets, each with its clock reading. -/
def L3.run (MAPSIZE XDPACTION : Nat) (P : L3) : List (Packet × Nat) → State → State
  | [], s => s
  | (ctx, ktime) :: rest, s => L3.run MAPSIZE XDPACTION P rest (P.prog MAPSIZE XDPACTION ctx ktime s).2

/-! ## Sequences of invocations -/

/-- The programs of `noobflow.c` a slot of `parse_layer3` can be loaded with. -/
inductive Loaded where
  | null
  | l3 (P : L3)
  deriving DecidableEq, Repr

/-- The program a slot content stands for. -/
def Loaded.prog (MAPSIZE XDPACTION : Nat) : Loaded → Prog
  | .null => null_parser_prog
  | .l3 P => P.prog MAPSIZE XDPACTION

/-- A wiring of `parse_layer3`: what each slot is loaded with, if anything. -/
abbrev Wiring := Nat → Option Loaded

/-- The program array of a wiring. -/
def Wiring.array (MAPSIZE XDPACTION : Nat) (w : Wiring) : ProgArray :=
  fun i => (w i).map (Loaded.prog MAPSIZE XDPACTION)

/-- The program a packet is handed to: `xdp_parser` under some wiring of
`parse_layer3`, or one of the layer-3 parsers directly. -/
inductive Entry where
  | xdp (w : Wiring)
  | l3 (P : L3)

/-- One invocation: the program entered, the packet, and the clock reading. -/
structure Step where
  entry : Entry
  ctx : Packet
  ktime : Nat

/-- The effect of one invocation. -/
def Step.exec (MAPSIZE XDPACTION : Nat) (st : Step) (s : State) : Nat × State :=
  match st.entry with
  | .xdp w => xdp_parser_prog (w.array MAPSIZE XDPACTION) st.ctx st.ktime s
  | .l3 P => P.prog MAPSIZE XDPACTION st.ctx st.ktime s

/-- The state after a sequence of invocations. -/
def run (MAPSIZE XDPACTION : Nat) : List Step → State → State
  | [], s => s
  | st :: rest, s => run MAPSIZE XDPACTION rest (st.exec MAPSIZE XDPACTION s).2

/-- The property of C8 for one table: every entry has `start ≤ end`, `packets ≥ 1`
and `end > 0`. -/
def Table.well_formed (t : Table) : Prop :=
  ∀ e ∈ t, e.2.start ≤ e.2.end_ ∧ 1 ≤ e.2.packets ∧ 0 < e.2.end_

/-- The inductive strengthening of `Table.well_formed` after `n` invocations, the
latest at clock reading `T`. -/
def Table.inv (n T : Nat) (t : Table) : Prop :=
  ∀ e ∈ t, e.2.start ≤ T ∧ e.2.start < e.2.end_ ∧ 1 ≤ e.2.packets ∧ e.2.packets ≤ n

/-- Both tables satisfy the strengthened invariant. -/
def State.inv (n T : Nat) (s : State) : Prop := s.flows0.inv n T ∧ s.flows1.inv n T

/-! ## Sample packets -/

/-- An Ethernet header carrying the given two ethertype bytes. -/
def eth_hdr (hi lo : Nat) : Packet := [2, 0, 0, 0, 0, 1, 2, 0, 0, 0, 0, 2, hi, lo]

/-- A 20-byte IPv4 base header from 10.0.0.1 to 10.0.0.2 with the given protocol. -/
def ipv4_hdr (proto : Nat) : Packet :=
  [0x45, 0, 0, 0, 0, 0, 0, 0, 64, proto, 0, 0, 10, 0, 0, 1, 10, 0, 0, 2]

/-- A UDP header from port 5000 to port 53. -/
def udp_hdr : Packet := [0x13, 0x88, 0x00, 0x35, 0, 0, 0, 0]

/-- A 20-byte TCP header from port 443 (0x01BB) to port 51000 (0xC738). -/
def tcp_hdr : Packet := [0x01, 0xBB, 0xC7, 0x38, 0, 0, 0, 0, 0, 0, 0, 0, 0x50, 0x10, 0, 0, 0, 0, 0, 0]

/-- An ICMP header with the given type and code. -/
def icmp_hdr (type code : Nat) : Packet := [type, code, 0, 0, 0, 0, 0, 0]

/-- An Ethernet + IPv4 + UDP packet with `n` payload bytes. -/
def udp_packet (n : Nat) : Packet := eth_hdr 0x08 0x00 ++ ipv4_hdr 17 ++ udp_hdr ++ List.replicate n 0

/-- An Ethernet + IPv4 + TCP packet with `n` payload bytes. -/
def tcp_packet (n : Nat) : Packet := eth_hdr 0x08 0x00 ++ ipv4_hdr 6 ++ tcp_hdr ++ List.replicate n 0

/-- An Ethernet + IPv4 + ICMP packet with the given type and `n` payload bytes. -/
def icmp_packet (type n : Nat) : Packet :=
  eth_hdr 0x08 0x00 ++ ipv4_hdr 1 ++ icmp_hdr type 0 ++ List.replicate n 0

/-- The key of `udp_packet`. -/
def udp_key : flow_attrs := ⟨ETH_P_IP, UDP, 0x0A000001, 0x0A000002, 5000, 53⟩

/-- The key of `tcp_packet`. -/
def tcp_key : flow_attrs := ⟨ETH_P_IP, TCP, 0x0A000001, 0x0A000002, 443, 51000⟩

/-- The state with both tables empty and nothing traced. -/
def State.empty : State := ⟨[], [], []⟩

/-- A state whose `flows0` and `flows1` hold one entry each, that of `tcp_key`. -/
def State.one_tcp_flow : State :=
  ⟨[(tcp_key, ⟨10, 21, 1, 60⟩)], [(tcp_key, ⟨10, 21, 1, 60⟩)], []⟩

/-- A frame cut 2 bytes into its IPv4 header: 16 bytes. -/
def truncated_packet : Packet := eth_hdr 0x08 0x00 ++ [0x45, 0]

/-- A frame cut inside its Ethernet header: 6 bytes. -/
def runt_packet : Packet := [2, 0, 0, 0, 0, 1]

/-- The L4 header size the L4 stage checks for a protocol number: `sizeof(struct
icmphdr)`, `sizeof(struct tcphdr)`, `sizeof(struct udphdr)`. -/
def l4_header_size (proto : Nat) : Nat :=
  if proto = ICMP then sizeof_icmphdr
  else if proto = TCP then sizeof_tcphdr
  else if proto = UDP then sizeof_udphdr
  else 0

/-- An Ethernet + IPv4 frame of protocol TCP cut 6 bytes into the TCP header: 40 bytes. -/
def short_tcp_packet : Packet := eth_hdr 0x08 0x00 ++ ipv4_hdr 6 ++ [0x01, 0xBB, 0xC7, 0x38, 0, 0]

/-- An Ethernet + IPv4 packet of protocol 47 (GRE) with 26 bytes after the IP header. -/
def gre_packet : Packet := eth_hdr 0x08 0x00 ++ ipv4_hdr 47 ++ List.replicate 26 0

/-- A 40-byte IPv6 base header from 2001:db8::1 to 2001:db8::2 with the given next
header. -/
def ipv6_hdr (nexthdr : Nat) : Packet :=
  [0x60, 0, 0, 0, 0, 0, nexthdr, 64,
   0x20, 0x01, 0x0d, 0xb8, 0, 0, 0, 0, 0, 0, 0, 0, 0, 0, 0, 1,
   0x20, 0x01, 0x0d, 0xb8, 0, 0, 0, 0, 0, 0, 0, 0, 0, 0, 0, 2]

/-- An Ethernet + IPv6 + UDP packet with `n` payload bytes. -/
def udp6_packet (n : Nat) : Packet :=
  eth_hdr 0x86 0xDD ++ ipv6_hdr 17 ++ udp_hdr ++ List.replicate n 0

/-- The wiring with `parse_ipv4_flows0` in slot 4 and `parse_ipv6_flows0` in slot 6. -/
def wiring_flows0 : Wiring := fun i =>
  if i = 4 then some (.l3 .ipv4_flows0) else if i = 6 then some (.l3 .ipv6_flows0) else none

/-- A sample sequence of invocations: `xdp_parser` wired to buffer 0 on a TCP and on
an IPv6 UDP packet, the buffer-1 parsers entered directly, and a second TCP packet. -/
def sample_steps : List Step :=
  [⟨.xdp wiring_flows0, tcp_packet 46, 5⟩,
   ⟨.xdp wiring_flows0, udp6_packet 10, 5⟩,
   ⟨.l3 .ipv4_flows1, udp_packet 18, 9⟩,
   ⟨.l3 .ipv6_flows1, udp6_packet 10, 12⟩,
   ⟨.xdp wiring_flows0, tcp_packet 1, 20⟩]

/-- An Ethernet frame with the 802.1Q ethertype 0x8100, a VLAN tag and an IPv4 packet
behind it. -/
def vlan_packet : Packet :=
  eth_hdr 0x81 0x00 ++ [0, 5, 0x08, 0x00] ++ ipv4_hdr 17 ++ udp_hdr ++ List.replicate 18 0

/-- An ARP frame: ethertype 0x0806 and 28 bytes behind it. -/
def arp_packet : Packet := eth_hdr 0x08 0x06 ++ List.replicate 28 0

/-- The key of `icmp_packet type n`: the type is the upper byte of `src_port`. -/
def icmp_key (type : Nat) : flow_attrs := ⟨ETH_P_IP, ICMP, 0x0A000001, 0x0A000002, type * 256, 0⟩

/-- A state whose `flows0` and `flows1` hold one entry each, that of `udp_key`. -/
def State.one_udp_flow : State :=
  ⟨[(udp_key, ⟨10, 21, 1, 60⟩)], [(udp_key, ⟨10, 21, 1, 60⟩)], []⟩

/-- A 40-byte IPv6 base header whose addresses agree with those of `ipv6_hdr` in their
first 4 bytes only: from 2001:db8:aaaa::9 to 2001:db8:bbbb::7. -/
def ipv6_hdr_alt (nexthdr : Nat) : Packet :=
  [0x60, 0, 0, 0, 0, 0, nexthdr, 64,
   0x20, 0x01, 0x0d, 0xb8, 0xaa, 0xaa, 0, 0, 0, 0, 0, 0, 0, 0, 0, 9,
   0x20, 0x01, 0x0d, 0xb8, 0xbb, 0xbb, 0, 0, 0, 0, 0, 0, 0, 0, 0, 7]

/-- An Ethernet + IPv6 + UDP packet between the addresses of `ipv6_hdr_alt`. -/
def udp6_packet_alt (n : Nat) : Packet :=
  eth_hdr 0x86 0xDD ++ ipv6_hdr_alt 17 ++ udp_hdr ++ List.replicate n 0

/-- The key of `udp6_packet` and of `udp6_packet_alt`. -/
def udp6_key : flow_attrs := ⟨ETH_P_IPV6, UDP, 0x20010db8, 0x20010db8, 5000, 53⟩

/-- The wiring with `parse_ipv4_flows1` in slot 4 and `parse_ipv6_flows1` in slot 6. -/
def wiring_flows1 : Wiring := fun i =>
  if i = 4 then some (.l3 .ipv4_flows1) else if i = 6 then some (.l3 .ipv6_flows1) else none

/-- A 14-byte frame: an Ethernet header with ethertype IPv4 and nothing behind it. -/
def bare_eth_packet : Packet := eth_hdr 0x08 0x00

/-- A 34-byte frame: Ethernet and IPv4 base header of protocol TCP, nothing behind. -/
def bare_ipv4_packet : Packet := eth_hdr 0x08 0x00 ++ ipv4_hdr 6

/-- An Ethernet + IPv6 packet with the given next header, an 8-byte ICMP-shaped header
of the given type behind the base header, and `n` payload bytes. -/
def icmp6_packet (nexthdr type n : Nat) : Packet :=
  eth_hdr 0x86 0xDD ++ ipv6_hdr nexthdr ++ icmp_hdr type 0 ++ List.replicate n 0

/-- A 100-byte IPv4 frame of protocol TCP between 10.0.0.1 and 10.0.0.2 with other MAC
addresses than `tcp_packet`, header length field 6 (one 4-byte option), other
TOS, identification, TTL and checksum, and the bytes `01 BB C7 38` at offsets
34..37, where the option lies. -/
def tcp_packet_options : Packet :=
  [0xAA, 0xBB, 0xCC, 0, 0, 1, 0xAA, 0xBB, 0xCC, 0, 0, 2, 0x08, 0x00,
   0x46, 0x10, 0, 86, 0x12, 0x34, 0x40, 0, 63, 6, 0xAB, 0xCD, 10, 0, 0, 1, 10, 0, 0, 2,
   0x01, 0xBB, 0xC7, 0x38] ++ List.replicate 62 7

/-! ## Where the L4 header of a packet lies -/

/-- The field `ihl` of `struct iphdr` (`linux/ip.h`): the low four bits of the first
byte of the IPv4 header, the length of that header in 32-bit words (5 without
options). The parsers never read it. -/
def ipv4_ihl (ctx : Packet) : Nat := byte_at ctx sizeof_ethhdr % 16

/-- The offset at which the L4 header of an IPv4 packet starts: behind the Ethernet
header and the `4 * ihl` bytes of the IPv4 header, options included. -/
def ipv4_l4_start (ctx : Packet) : Nat := sizeof_ethhdr + 4 * ipv4_ihl ctx

/-- The source port of the TCP header of an IPv4 packet: its first two bytes. -/
def ipv4_tcp_source (ctx : Packet) : Nat := be16_at ctx (ipv4_l4_start ctx)

/-- The destination port of the TCP header of an IPv4 packet: its bytes 2 and 3. -/
def ipv4_tcp_dest (ctx : Packet) : Nat := be16_at ctx (ipv4_l4_start ctx + 2)

/-- The offset at which the L4 header of a packet starts, in the address family of a
parser: `ipv4_l4_start` for IPv4; for IPv6 the end of the 40-byte base header, where
the header named by the next-header byte begins. -/
def L3.l4_start : L3 → Packet → Nat
  | .ipv4_flows0, ctx => ipv4_l4_start ctx
  | .ipv4_flows1, ctx => ipv4_l4_start ctx
  | .ipv6_flows0, _ => sizeof_ethhdr + sizeof_ipv6hdr
  | .ipv6_flows1, _ => sizeof_ethhdr + sizeof_ipv6hdr

/-- The field `type` of the ICMP header of a packet: the first byte of its L4 header. -/
def L3.icmp_type (P : L3) (ctx : Packet) : Nat := byte_at ctx (P.l4_start ctx)

/-- The field `code` of the ICMP header of a packet: the second byte of its L4 header. -/
def L3.icmp_code (P : L3) (ctx : Packet) : Nat := byte_at ctx (P.l4_start ctx + 1)

/-- A 24-byte IPv4 header from 10.0.0.1 to 10.0.0.2 with the given protocol, header
length field 6 and one option word of four no-operation options (`01 01 01 01`). -/
def ipv4_hdr_nop (proto : Nat) : Packet :=
  [0x46, 0, 0, 0, 0, 0, 0, 0, 64, proto, 0, 0, 10, 0, 0, 1, 10, 0, 0, 2, 1, 1, 1, 1]

/-- A 20-byte TCP header from port 80 (0x0050) to port 8080 (0x1F90). -/
def tcp_hdr_80_8080 : Packet :=
  [0x00, 0x50, 0x1F, 0x90, 0, 0, 0, 0, 0, 0, 0, 0, 0x50, 0x10, 0, 0, 0, 0, 0, 0]

/-- An Ethernet + IPv4 + TCP packet with one IPv4 option word and `n` payload bytes; the
TCP header starts at offset 38. -/
def tcp_packet_nop (n : Nat) : Packet :=
  eth_hdr 0x08 0x00 ++ ipv4_hdr_nop 6 ++ tcp_hdr_80_8080 ++ List.replicate n 0

/-- An Ethernet + IPv4 + ICMP packet with one IPv4 option word, the given ICMP type and
`n` payload bytes; the ICMP header starts at offset 38. -/
def icmp_packet_nop (type n : Nat) : Packet :=
  eth_hdr 0x08 0x00 ++ ipv4_hdr_nop 1 ++ icmp_hdr type 0 ++ List.replicate n 0

/-! ## Characterisation of the parsers -/

theorem State.eta_flows0 (s : State) : { s with flows0 := s.flows0 } = s := by
  cases s; rfl

theorem State.eta_flows1 (s : State) : { s with flows1 := s.flows1 } = s := by
  cases s; rfl

theorem parse_ipv4_flows0_eq (M A : Nat) (ctx : Packet) (kt : Nat) (s : State) :
    parse_ipv4_flows0 M A ctx kt s =
      if sizeof_ethhdr + sizeof_iphdr > ctx.length then (XDP_DROP, s)
      else match ipv4_key ctx with
        | none => (A, s)
        | some p => (A, { s with flows0 := flow_upsert M s.flows0 p kt ctx.length }) := by
  unfold parse_ipv4_flows0 ipv4_key l4_key flow_upsert accms_bump
  simp only [sizeof_ethhdr, sizeof_iphdr, sizeof_icmphdr, sizeof_tcphdr, sizeof_udphdr,
    Nat.reduceAdd, Nat.reducePow, Nat.mod_mod]
  split_ifs <;> simp only [] <;> split <;> simp_all [State.eta_flows0]

theorem parse_ipv4_flows1_eq (M A : Nat) (ctx : Packet) (kt : Nat) (s : State) :
    parse_ipv4_flows1 M A ctx kt s =
      if sizeof_ethhdr + sizeof_iphdr > ctx.length then (XDP_DROP, s)
      else match ipv4_key ctx with
        | none => (A, s)
        | some p => (A, { s with flows1 := flow_upsert M s.flows1 p kt ctx.length }) := by
  unfold parse_ipv4_flows1 ipv4_key l4_key flow_upsert accms_bump
  simp only [sizeof_ethhdr, sizeof_iphdr, sizeof_icmphdr, sizeof_tcphdr, sizeof_udphdr,
    Nat.reduceAdd, Nat.reducePow, Nat.mod_mod]
  split_ifs <;> simp only [] <;> split <;> simp_all [State.eta_flows1]

theorem parse_ipv6_flows0_eq (M A : Nat) (ctx : Packet) (kt : Nat) (s : State) :
    parse_ipv6_flows0 M A ctx kt s =
      if sizeof_ethhdr + sizeof_ipv6hdr > ctx.length then (XDP_DROP, s)
      else match ipv6_key ctx with
        | none => (A, s)
        | some p => (A, { s with flows0 := flow_upsert M s.flows0 p kt ctx.length }) := by
  unfold parse_ipv6_flows0 ipv6_key l4_key flow_upsert accms_bump
  simp only [sizeof_ethhdr, sizeof_ipv6hdr, sizeof_icmphdr, sizeof_tcphdr, sizeof_udphdr,
    Nat.reduceAdd, Nat.reducePow, Nat.mod_mod]
  split_ifs <;> simp only [] <;> split <;> simp_all [State.eta_flows0]

theorem parse_ipv6_flows1_eq (M A : Nat) (ctx : Packet) (kt : Nat) (s : State) :
    parse_ipv6_flows1 M A ctx kt s =
      if sizeof_ethhdr + sizeof_ipv6hdr > ctx.length then (XDP_DROP, s)
      else match ipv6_key ctx with
        | none => (A, s)
        | some p => (A, { s with flows1 := flow_upsert M s.flows1 p kt ctx.length }) := by
  unfold parse_ipv6_flows1 ipv6_key l4_key flow_upsert accms_bump
  simp only [sizeof_ethhdr, sizeof_ipv6hdr, sizeof_icmphdr, sizeof_tcphdr, sizeof_udphdr,
    Nat.reduceAdd, Nat.reducePow, Nat.mod_mod]
  split_ifs <;> simp only [] <;> split <;> simp_all [State.eta_flows1]

/-- Every layer-3 parser: drop on a short base header, the configured action and
no change without a key, the configured action and one upsert with a key. -/
theorem L3.prog_eq (M A : Nat) (P : L3) (ctx : Packet) (kt : Nat) (s : State) :
    P.prog M A ctx kt s =
      if P.l4_offset > ctx.length then (XDP_DROP, s)
      else match P.key ctx with
        | none => (A, s)
        | some p => (A, P.set_table s (flow_upsert M (P.table s) p kt ctx.length)) := by
  cases P
  · exact parse_ipv4_flows0_eq M A ctx kt s
  · exact parse_ipv4_flows1_eq M A ctx kt s
  · exact parse_ipv6_flows0_eq M A ctx kt s
  · exact parse_ipv6_flows1_eq M A ctx kt s

theorem L3.key_none_of_short (P : L3) (ctx : Packet) (h : P.l4_offset > ctx.length) :
    P.key ctx = none := by
  cases P <;> simp only [L3.key, L3.l4_offset, ipv4_key, ipv6_key] at * <;> simp [h]

theorem L3.table_set_table (P : L3) (s : State) (t : Table) :
    P.table (P.set_table s t) = t := by
  cases P <;> rfl

theorem L3.set_table_table (P : L3) (s : State) : P.set_table s (P.table s) = s := by
  cases P <;> cases s <;> rfl

/-- With a key the parser returns the configured action and upserts its table. -/
theorem L3.prog_of_key (M A : Nat) (P : L3) (ctx : Packet) (kt : Nat) (s : State)
    (k : flow_attrs) (hk : P.key ctx = some k) :
    P.prog M A ctx kt s = (A, P.set_table s (flow_upsert M (P.table s) k kt ctx.length)) := by
  rw [L3.prog_eq]
  split_ifs with h
  · rw [L3.key_none_of_short P ctx h] at hk; cases hk
  · rw [hk]

/-! ## The table primitives -/

theorem Table.lookup_update_self (t : Table) (k : flow_attrs) (f : flow_accms → flow_accms) :
    (t.update k f).lookup k = (t.lookup k).map f := by
  induction t with
  | nil => rfl
  | cons e rest ih =>
    obtain ⟨k', a⟩ := e
    by_cases h : k' = k
    · simp [Table.update, Table.lookup, h]
    · simp [Table.update, Table.lookup, h, ih]

theorem Table.lookup_update_ne (t : Table) (k k' : flow_attrs) (f : flow_accms → flow_accms)
    (h : k' ≠ k) : (t.update k f).lookup k' = t.lookup k' := by
  induction t with
  | nil => rfl
  | cons e rest ih =>
    obtain ⟨k0, a⟩ := e
    by_cases h0 : k0 = k
    · subst h0
      have : ¬ k0 = k' := fun e => h e.symm
      simp [Table.update, Table.lookup, this]
    · by_cases h1 : k0 = k'
      · subst h1
        simp [Table.update, Table.lookup, h0]
      · simp [Table.update, Table.lookup, h0, h1, ih]

theorem Table.length_update (t : Table) (k : flow_attrs) (f : flow_accms → flow_accms) :
    (t.update k f).length = t.length := by
  induction t with
  | nil => rfl
  | cons e rest ih =>
    obtain ⟨k0, a⟩ := e
    by_cases h0 : k0 = k
    · simp [Table.update, h0]
    · simp [Table.update, h0, ih]

theorem Table.mem_update (t : Table) (k : flow_attrs) (f : flow_accms → flow_accms)
    (e : flow_attrs × flow_accms) (he : e ∈ t.update k f) :
    e ∈ t ∨ ∃ a, (e.1, a) ∈ t ∧ e.2 = f a := by
  induction t with
  | nil => simp [Table.update] at he
  | cons e0 rest ih =>
    obtain ⟨k0, a0⟩ := e0
    by_cases h0 : k0 = k
    · simp only [Table.update, h0, if_true, List.mem_cons] at he
      rcases he with rfl | he
      · right; exact ⟨a0, by simp [h0], rfl⟩
      · left; simp [he]
    · simp only [Table.update, h0, if_false, List.mem_cons] at he
      rcases he with rfl | he
      · left; simp
      · rcases ih he with h | ⟨a, ha, hf⟩
        · left; simp [h]
        · right; exact ⟨a, by simp [ha], hf⟩

theorem flow_upsert_full (M : Nat) (t : Table) (p : flow_attrs) (kt len : Nat)
    (hn : t.lookup p = none) (hfull : M ≤ t.length) : flow_upsert M t p kt len = t := by
  have : ¬ t.length < M := by omega
  simp [flow_upsert, lookup_or_try_init, hn, this]

theorem flow_upsert_lookup_new (M : Nat) (t : Table) (p : flow_attrs) (kt len : Nat)
    (hn : t.lookup p = none) (hfree : t.length < M) :
    (flow_upsert M t p kt len).lookup p = some (accms_bump kt len ⟨kt % 2 ^ 64, 0, 0, 0⟩) := by
  simp [flow_upsert, lookup_or_try_init, hn, hfree, Table.lookup_update_self, Table.lookup]

theorem flow_upsert_lookup_old (M : Nat) (t : Table) (p : flow_attrs) (kt len : Nat)
    (a : flow_accms) (ha : t.lookup p = some a) :
    (flow_upsert M t p kt len).lookup p = some (accms_bump kt len a) := by
  simp [flow_upsert, lookup_or_try_init, ha, Table.lookup_update_self]

theorem flow_upsert_lookup_ne (M : Nat) (t : Table) (p k : flow_attrs) (kt len : Nat)
    (h : k ≠ p) : (flow_upsert M t p kt len).lookup k = t.lookup k := by
  unfold flow_upsert lookup_or_try_init
  cases hl : t.lookup p with
  | some a => simp [Table.lookup_update_ne _ _ _ _ h]
  | none =>
    by_cases hfree : t.length < M
    · have : ¬ p = k := fun e => h e.symm
      simp [hfree, Table.lookup_update_ne _ _ _ _ h, Table.lookup, this]
    · simp [hfree]

theorem flow_upsert_length_le (M : Nat) (t : Table) (p : flow_attrs) (kt len : Nat) :
    t.length ≤ (flow_upsert M t p kt len).length
      ∧ (flow_upsert M t p kt len).length ≤ t.length + 1 := by
  unfold flow_upsert lookup_or_try_init
  cases hl : t.lookup p with
  | some a => simp [Table.length_update]
  | none =>
    by_cases hfree : t.length < M
    · simp [hfree, Table.length_update]
    · simp [hfree]

/-! ## Runs of one parser on one flow -/

theorem L3.key_length_pos (P : L3) (ctx : Packet) (k : flow_attrs) (hk : P.key ctx = some k) :
    P.l4_offset ≤ ctx.length := by
  by_contra h
  rw [L3.key_none_of_short P ctx (by omega)] at hk
  cases hk

theorem L3.l4_offset_pos (P : L3) : 0 < P.l4_offset := by
  cases P <;> simp [L3.l4_offset]

/-- A run over packets of one flow whose entry exists already: the entry stays,
`start` is kept, the counters grow by the number and the lengths of the packets. -/
theorem L3.run_existing (M A : Nat) (P : L3) (k : flow_attrs) (T : Nat) :
    ∀ (inputs : List (Packet × Nat)) (s : State) (a : flow_accms),
      (P.table s).lookup k = some a →
      (∀ x ∈ inputs, P.key x.1 = some k ∧ x.1.length < 2 ^ 16 ∧ T ≤ x.2 ∧ x.2 + 1 < 2 ^ 64) →
      a.start ≤ T → a.start < a.end_ →
      a.packets + inputs.length < 2 ^ 64 →
      a.bytes + (inputs.map (fun x => x.1.length)).sum < 2 ^ 64 →
      ∃ a', (P.table (P.run M A inputs s)).lookup k = some a' ∧ a'.start = a.start
        ∧ a'.packets = a.packets + inputs.length
        ∧ a'.bytes = a.bytes + (inputs.map (fun x => x.1.length)).sum
        ∧ a'.start < a'.end_ := by
  intro inputs
  induction inputs with
  | nil =>
    intro s a ha _ _ hse _ _
    exact ⟨a, by simpa [L3.run] using ha, rfl, by simp, by simp, hse⟩
  | cons x rest ih =>
    intro s a ha hall hT hse hp hb
    obtain ⟨ctx, kt⟩ := x
    obtain ⟨hk, hlen, hTk, hclk⟩ := hall (ctx, kt) (by simp)
    simp only at hk hlen hTk hclk
    simp only [List.map_cons, List.sum_cons, List.length_cons] at hp hb
    simp only [L3.run, L3.prog_of_key M A P ctx kt s k hk]
    have hlook := flow_upsert_lookup_old M (P.table s) k kt ctx.length a ha
    have h16 : ctx.length % 2 ^ 32 % 2 ^ 16 = ctx.length := by
      have : ctx.length < 2 ^ 32 := by omega
      rw [Nat.mod_eq_of_lt this, Nat.mod_eq_of_lt hlen]
    have hkt : kt % 2 ^ 64 = kt := Nat.mod_eq_of_lt (by omega)
    have hbump : accms_bump kt ctx.length a
        = ⟨a.start, kt + 1, a.packets + 1, a.bytes + ctx.length⟩ := by
      simp only [accms_bump, h16, hkt]
      rw [Nat.mod_eq_of_lt hclk, Nat.mod_eq_of_lt (by omega : a.packets + 1 < 2 ^ 64),
        Nat.mod_eq_of_lt (by omega : a.bytes + ctx.length < 2 ^ 64)]
    rw [hbump] at hlook
    obtain ⟨a', h1, h2, h3, h4, h5⟩ := ih
      (P.set_table s (flow_upsert M (P.table s) k kt ctx.length))
      ⟨a.start, kt + 1, a.packets + 1, a.bytes + ctx.length⟩
      (by rw [L3.table_set_table]; exact hlook)
      (fun y hy => hall y (by simp [hy]))
      hT (by simp only; omega) (by simp only; omega) (by simp only; omega)
    refine ⟨a', h1, h2, ?_, ?_, h5⟩
    · rw [h3]; simp only [List.length_cons]; omega
    · rw [h4]; simp only [List.map_cons, List.sum_cons]; omega

/-! ## The sample packets -/

theorem L3.key_ipv4_flows0 (ctx : Packet) : L3.key .ipv4_flows0 ctx = ipv4_key ctx := rfl

theorem L3.key_ipv4_flows1 (ctx : Packet) : L3.key .ipv4_flows1 ctx = ipv4_key ctx := rfl

theorem udp_packet_length (n : Nat) : (udp_packet n).length = 42 + n := by
  simp [udp_packet, eth_hdr, ipv4_hdr, udp_hdr]
  omega

theorem tcp_packet_length (n : Nat) : (tcp_packet n).length = 54 + n := by
  simp [tcp_packet, eth_hdr, ipv4_hdr, tcp_hdr]
  omega

theorem ipv4_key_tcp (ctx : Packet) (hlen : 54 < ctx.length) (hproto : byte_at ctx 23 = TCP) :
    ipv4_key ctx
      = some ⟨ETH_P_IP, TCP, be32_at ctx 26, be32_at ctx 30, be16_at ctx 34, be16_at ctx 36⟩ := by
  have h1 : ¬ (sizeof_ethhdr + sizeof_iphdr > ctx.length) := by
    show ¬ (14 + 20 > ctx.length)
    omega
  have h2 : 34 + sizeof_tcphdr < ctx.length := by
    show 34 + 20 < ctx.length
    omega
  simp [ipv4_key, l4_key, h1, h2, hproto]

theorem ipv4_key_udp (ctx : Packet) (hlen : 42 < ctx.length) (hproto : byte_at ctx 23 = UDP) :
    ipv4_key ctx
      = some ⟨ETH_P_IP, UDP, be32_at ctx 26, be32_at ctx 30, be16_at ctx 34, be16_at ctx 36⟩ := by
  have h1 : ¬ (sizeof_ethhdr + sizeof_iphdr > ctx.length) := by
    show ¬ (14 + 20 > ctx.length)
    omega
  have h2 : 34 + sizeof_udphdr < ctx.length := by
    show 34 + 8 < ctx.length
    omega
  simp [ipv4_key, l4_key, h1, h2, hproto]

theorem udp_packet_key (n : Nat) (h : 0 < n) : ipv4_key (udp_packet n) = some udp_key := by
  have hlen := udp_packet_length n
  rw [ipv4_key_udp (udp_packet n) (by omega) rfl]
  simp only [be32_at, be16_at, Nat.reduceAdd]
  rw [show byte_at (udp_packet n) 26 = 10 from rfl, show byte_at (udp_packet n) 27 = 0 from rfl,
    show byte_at (udp_packet n) 28 = 0 from rfl, show byte_at (udp_packet n) 29 = 1 from rfl,
    show byte_at (udp_packet n) 30 = 10 from rfl, show byte_at (udp_packet n) 31 = 0 from rfl,
    show byte_at (udp_packet n) 32 = 0 from rfl, show byte_at (udp_packet n) 33 = 2 from rfl,
    show byte_at (udp_packet n) 34 = 0x13 from rfl, show byte_at (udp_packet n) 35 = 0x88 from rfl,
    show byte_at (udp_packet n) 36 = 0 from rfl, show byte_at (udp_packet n) 37 = 0x35 from rfl]
  rfl

theorem tcp_packet_key (n : Nat) (h : 0 < n) : ipv4_key (tcp_packet n) = some tcp_key := by
  have hlen := tcp_packet_length n
  rw [ipv4_key_tcp (tcp_packet n) (by omega) rfl]
  simp only [be32_at, be16_at, Nat.reduceAdd]
  rw [show byte_at (tcp_packet n) 26 = 10 from rfl, show byte_at (tcp_packet n) 27 = 0 from rfl,
    show byte_at (tcp_packet n) 28 = 0 from rfl, show byte_at (tcp_packet n) 29 = 1 from rfl,
    show byte_at (tcp_packet n) 30 = 10 from rfl, show byte_at (tcp_packet n) 31 = 0 from rfl,
    show byte_at (tcp_packet n) 32 = 0 from rfl, show byte_at (tcp_packet n) 33 = 2 from rfl,
    show byte_at (tcp_packet n) 34 = 0x01 from rfl, show byte_at (tcp_packet n) 35 = 0xBB from rfl,
    show byte_at (tcp_packet n) 36 = 0xC7 from rfl, show byte_at (tcp_packet n) 37 = 0x38 from rfl]
  rfl

/-! ## C1: counters of one flow after N packets -/

/-- C1, as amended. For every flow key `k`, every parser `P` whose table has no entry
for `k` and has room for one, and every sequence of `N ≥ 1` packets that all
parse to `k`, each shorter than 65536 bytes, with non-decreasing clock readings
below `2 ^ 64 - 1` and lengths summing to less than `2 ^ 64`: after the run the
entry of `k` has `packets = N`, `bytes` = the sum of the packet lengths, `start` =
the clock reading of the first packet, and `end > start`. -/
theorem c1_counters_after_n_packets (M A : Nat) (P : L3) (k : flow_attrs) (s : State)
    (ctx0 : Packet) (kt0 : Nat) (rest : List (Packet × Nat))
    (hfresh : (P.table s).lookup k = none) (hroom : (P.table s).length < M)
    (hkey : ∀ x ∈ (ctx0, kt0) :: rest, P.key x.1 = some k)
    (hlen : ∀ x ∈ (ctx0, kt0) :: rest, x.1.length < 2 ^ 16)
    (hts : List.Pairwise (fun a b => a ≤ b) (((ctx0, kt0) :: rest).map Prod.snd))
    (hclock : ∀ x ∈ (ctx0, kt0) :: rest, x.2 < 2 ^ 64 - 1)
    (hsum : ((((ctx0, kt0) :: rest).map (fun x => x.1.length)).sum) < 2 ^ 64) :
    ∃ a, (P.table (P.run M A ((ctx0, kt0) :: rest) s)).lookup k = some a
      ∧ a.packets = ((ctx0, kt0) :: rest).length
      ∧ a.bytes = (((ctx0, kt0) :: rest).map (fun x => x.1.length)).sum
      ∧ a.start = kt0
      ∧ a.start < a.end_ := by
  have hk0 : P.key ctx0 = some k := hkey (ctx0, kt0) (by simp)
  have hlen0 : ctx0.length < 2 ^ 16 := hlen (ctx0, kt0) (by simp)
  have hclk0 : kt0 < 2 ^ 64 - 1 := hclock (ctx0, kt0) (by simp)
  simp only [List.map_cons, List.sum_cons, List.pairwise_cons, List.length_cons] at hts hsum ⊢
  have hpos : ∀ x ∈ rest, 1 ≤ x.1.length := fun x hx => by
    have h1 := L3.key_length_pos P x.1 k (hkey x (by simp [hx]))
    have h2 := L3.l4_offset_pos P
    omega
  have hpos0 : 1 ≤ ctx0.length := by
    have h1 := L3.key_length_pos P ctx0 k hk0
    have h2 := L3.l4_offset_pos P
    omega
  have hcount : rest.length ≤ (rest.map (fun x => x.1.length)).sum := by
    clear hkey hlen hts hclock hsum
    induction rest with
    | nil => simp
    | cons y ys ih =>
      have hy := hpos y (by simp)
      have := ih (fun x hx => hpos x (by simp [hx]))
      simp only [List.length_cons, List.map_cons, List.sum_cons]
      omega
  have h16 : ctx0.length % 2 ^ 32 % 2 ^ 16 = ctx0.length := by
    have : ctx0.length < 2 ^ 32 := by omega
    rw [Nat.mod_eq_of_lt this, Nat.mod_eq_of_lt hlen0]
  have hkt : kt0 % 2 ^ 64 = kt0 := Nat.mod_eq_of_lt (by omega)
  have hlook := flow_upsert_lookup_new M (P.table s) k kt0 ctx0.length hfresh hroom
  have hbump : accms_bump kt0 ctx0.length ⟨kt0 % 2 ^ 64, 0, 0, 0⟩
      = ⟨kt0, kt0 + 1, 1, ctx0.length⟩ := by
    simp only [accms_bump, h16, hkt, Nat.zero_add]
    rw [Nat.mod_eq_of_lt (by omega : kt0 + 1 < 2 ^ 64),
      Nat.mod_eq_of_lt (by omega : ctx0.length < 2 ^ 64)]
    simp
  rw [hbump] at hlook
  simp only [L3.run, L3.prog_of_key M A P ctx0 kt0 s k hk0]
  obtain ⟨a', h1, h2, h3, h4, h5⟩ := L3.run_existing M A P k kt0 rest
    (P.set_table s (flow_upsert M (P.table s) k kt0 ctx0.length))
    ⟨kt0, kt0 + 1, 1, ctx0.length⟩
    (by rw [L3.table_set_table]; exact hlook)
    (fun x hx => ⟨hkey x (by simp [hx]), hlen x (by simp [hx]),
      hts.1 x.2 (List.mem_map_of_mem _ hx),
      by have := hclock x (by simp [hx]); omega⟩)
    (le_refl _) (by simp only; omega) (by simp only; omega) (by simp only; omega)
  exact ⟨a', h1, by rw [h3]; simp only; omega, by rw [h4], h2, h5⟩

/-- Witness of C1: two 60-byte UDP packets of one flow at clock readings 100 and 200. -/
theorem c1_counters_after_n_packets_witness :
    ∃ a, (L3.table .ipv4_flows0 (L3.run 4 XDP_DROP .ipv4_flows0
            [(udp_packet 18, 100), (udp_packet 18, 200)] State.empty)).lookup udp_key = some a
      ∧ a.packets = 2 ∧ a.bytes = 120 ∧ a.start = 100 ∧ a.start < a.end_ :=
  c1_counters_after_n_packets 4 XDP_DROP .ipv4_flows0 udp_key State.empty (udp_packet 18) 100
    [(udp_packet 18, 200)] rfl (by decide) (by decide) (by decide) (by decide) (by decide)
    (by decide)

/-- Counterexample to C1 as stated. First, one UDP packet of 65549 bytes (an IPv4
datagram of the maximal total length 65535 behind its Ethernet header) parses to
`udp_key`, is inserted by `parse_ipv4_flows0` into an empty table with room, and
its entry then has `bytes = 13`, not 65549: the length passes through the
`uint16_t bytes` local. Second, one 60-byte UDP packet at the clock reading
`2 ^ 64 - 1` leaves `end = 0` below `start`, since `now + 1` wraps in `u64`. -/
theorem c1_counterexample :
    ((udp_packet 65507).length = 65549
        ∧ ipv4_key (udp_packet 65507) = some udp_key
        ∧ State.empty.flows0.lookup udp_key = none
        ∧ State.empty.flows0.length < 4
        ∧ (parse_ipv4_flows0 4 XDP_DROP (udp_packet 65507) 100 State.empty).2.flows0.lookup
            udp_key = some ⟨100, 101, 1, 13⟩)
      ∧ (ipv4_key (udp_packet 18) = some udp_key
        ∧ (parse_ipv4_flows0 4 XDP_DROP (udp_packet 18) (2 ^ 64 - 1) State.empty).2.flows0.lookup
            udp_key = some ⟨2 ^ 64 - 1, 0, 1, 60⟩) := by
  have hlen : (udp_packet 65507).length = 65549 := udp_packet_length 65507
  have hkey : ipv4_key (udp_packet 65507) = some udp_key := udp_packet_key 65507 (by decide)
  refine ⟨⟨hlen, hkey, rfl, by decide, ?_⟩, by decide, by decide⟩
  rw [parse_ipv4_flows0_eq, hlen, hkey]
  rfl

/-! ## C2: a table at capacity -/

/-- C2. For every parser whose table already holds `MAPSIZE` entries and every packet
that parses to a key with no entry in it, `lookup_or_try_init` fails, the parser
returns the configured action `XDPACTION`, and the state (both tables, every key
and accumulator in them) is unchanged. -/
theorem c2_insert_into_full_table_fails (M A : Nat) (P : L3) (ctx : Packet) (kt : Nat)
    (s : State) (k : flow_attrs)
    (hfull : (P.table s).length = M) (hkey : P.key ctx = some k)
    (habsent : (P.table s).lookup k = none) :
    lookup_or_try_init M (P.table s) k ⟨kt % 2 ^ 64, 0, 0, 0⟩ = none
      ∧ P.prog M A ctx kt s = (A, s) := by
  constructor
  · simp [lookup_or_try_init, habsent, hfull]
  · rw [L3.prog_of_key M A P ctx kt s k hkey,
      flow_upsert_full M (P.table s) k kt ctx.length habsent (by omega), L3.set_table_table]

/-- Witness of C2: a UDP packet against tables of capacity 1 that hold a TCP flow. -/
theorem c2_insert_into_full_table_fails_witness :
    lookup_or_try_init 1 State.one_tcp_flow.flows1 udp_key ⟨100 % 2 ^ 64, 0, 0, 0⟩ = none
      ∧ parse_ipv4_flows1 1 XDP_PASS (udp_packet 18) 100 State.one_tcp_flow
          = (XDP_PASS, State.one_tcp_flow) :=
  c2_insert_into_full_table_fails 1 XDP_PASS .ipv4_flows1 (udp_packet 18) 100
    State.one_tcp_flow udp_key rfl rfl rfl

/-! ## C3: buffer isolation -/

/-- C3. For every packet, clock reading and state, `parse_ipv4_flows0` and
`parse_ipv6_flows0` leave `flows1` exactly as it was, and `parse_ipv4_flows1` and
`parse_ipv6_flows1` leave `flows0` exactly as it was. -/
theorem c3_buffer_isolation (M A : Nat) (ctx : Packet) (kt : Nat) (s : State) :
    (parse_ipv4_flows0 M A ctx kt s).2.flows1 = s.flows1
      ∧ (parse_ipv6_flows0 M A ctx kt s).2.flows1 = s.flows1
      ∧ (parse_ipv4_flows1 M A ctx kt s).2.flows0 = s.flows0
      ∧ (parse_ipv6_flows1 M A ctx kt s).2.flows0 = s.flows0 := by
  rw [parse_ipv4_flows0_eq, parse_ipv6_flows0_eq, parse_ipv4_flows1_eq, parse_ipv6_flows1_eq]
  refine ⟨?_, ?_, ?_, ?_⟩ <;> split_ifs <;> first | rfl | (split <;> rfl)

/-! ## C4: packets shorter than the L2 / L3 headers -/

/-- C4. `xdp_parser` returns `XDP_DROP` (and changes nothing) for every packet shorter
than the 14-byte Ethernet header; the IPv4 parsers return `XDP_DROP` and leave the
state unchanged for every packet shorter than `14 + 20` bytes, the IPv6 parsers for
every packet shorter than `14 + 40` bytes; in particular a 16-byte packet, which
ends 2 bytes into the IPv4 header, is dropped by the IPv4 parsers with no table
change. -/
theorem c4_short_packets_dropped (M A : Nat) (parse_layer3 : ProgArray) (ctx : Packet)
    (kt : Nat) (s : State) :
    (ctx.length < 14 → xdp_parser_prog parse_layer3 ctx kt s = (XDP_DROP, s))
      ∧ (ctx.length < 14 + 20 →
          parse_ipv4_flows0 M A ctx kt s = (XDP_DROP, s)
            ∧ parse_ipv4_flows1 M A ctx kt s = (XDP_DROP, s))
      ∧ (ctx.length < 14 + 40 →
          parse_ipv6_flows0 M A ctx kt s = (XDP_DROP, s)
            ∧ parse_ipv6_flows1 M A ctx kt s = (XDP_DROP, s))
      ∧ (ctx.length = 16 →
          parse_ipv4_flows0 M A ctx kt s = (XDP_DROP, s)
            ∧ parse_ipv4_flows1 M A ctx kt s = (XDP_DROP, s)) := by
  refine ⟨fun h => ?_, fun h => ?_, fun h => ?_, fun h => ?_⟩
  · have : sizeof_ethhdr > ctx.length := h
    simp [xdp_parser_prog, this]
  · have : sizeof_ethhdr + sizeof_iphdr > ctx.length := h
    rw [parse_ipv4_flows0_eq, parse_ipv4_flows1_eq]
    simp [this]
  · have : sizeof_ethhdr + sizeof_ipv6hdr > ctx.length := h
    rw [parse_ipv6_flows0_eq, parse_ipv6_flows1_eq]
    simp [this]
  · have : sizeof_ethhdr + sizeof_iphdr > ctx.length := by
      show 14 + 20 > ctx.length
      omega
    rw [parse_ipv4_flows0_eq, parse_ipv4_flows1_eq]
    simp [this]

/-- Witness of C4: a 6-byte frame through `xdp_parser` wired to the two `flows0`
parsers, and the 16-byte frame through each layer-3 parser, against tables that
hold a flow. -/
theorem c4_short_packets_dropped_witness :
    xdp_parser_prog (fun i => if i = 4 then some (parse_ipv4_flows0 8 XDP_PASS)
          else if i = 6 then some (parse_ipv6_flows0 8 XDP_PASS) else none)
        runt_packet 100 State.one_tcp_flow = (XDP_DROP, State.one_tcp_flow)
      ∧ (parse_ipv4_flows0 8 XDP_PASS truncated_packet 100 State.one_tcp_flow
            = (XDP_DROP, State.one_tcp_flow)
          ∧ parse_ipv4_flows1 8 XDP_PASS truncated_packet 100 State.one_tcp_flow
            = (XDP_DROP, State.one_tcp_flow))
      ∧ (parse_ipv6_flows0 8 XDP_PASS truncated_packet 100 State.one_tcp_flow
            = (XDP_DROP, State.one_tcp_flow)
          ∧ parse_ipv6_flows1 8 XDP_PASS truncated_packet 100 State.one_tcp_flow
            = (XDP_DROP, State.one_tcp_flow))
      ∧ (parse_ipv4_flows0 8 XDP_PASS truncated_packet 100 State.one_tcp_flow
            = (XDP_DROP, State.one_tcp_flow)
          ∧ parse_ipv4_flows1 8 XDP_PASS truncated_packet 100 State.one_tcp_flow
            = (XDP_DROP, State.one_tcp_flow)) :=
  ⟨(c4_short_packets_dropped 8 XDP_PASS _ runt_packet 100 State.one_tcp_flow).1 (by decide),
   (c4_short_packets_dropped 8 XDP_PASS (fun _ => none) truncated_packet 100
      State.one_tcp_flow).2.1 (by decide),
   (c4_short_packets_dropped 8 XDP_PASS (fun _ => none) truncated_packet 100
      State.one_tcp_flow).2.2.1 (by decide),
   (c4_short_packets_dropped 8 XDP_PASS (fun _ => none) truncated_packet 100
      State.one_tcp_flow).2.2.2 (by decide)⟩

/-! ## C5, C6: no key from the L4 stage -/

theorem l4_key_eq_none (p : flow_attrs) (ctx : Packet) (offset proto : Nat)
    (h : proto = ICMP ∨ proto = TCP ∨ proto = UDP → ctx.length ≤ offset + l4_header_size proto) :
    l4_key p ctx offset proto = none := by
  unfold l4_key
  have h1 : ¬ (proto = ICMP ∧ offset + sizeof_icmphdr < ctx.length) := by
    rintro ⟨hp, hl⟩
    have := h (Or.inl hp)
    simp [l4_header_size, hp] at this
    omega
  have h2 : ¬ (proto = TCP ∧ offset + sizeof_tcphdr < ctx.length) := by
    rintro ⟨hp, hl⟩
    have := h (Or.inr (Or.inl hp))
    simp [l4_header_size, hp] at this
    omega
  have h3 : ¬ (proto = UDP ∧ offset + sizeof_udphdr < ctx.length) := by
    rintro ⟨hp, hl⟩
    have := h (Or.inr (Or.inr hp))
    simp [l4_header_size, hp] at this
    omega
  simp only [h1, h2, h3, if_false]

/-- A parser derives no key when the L4 header of a recognised protocol does not end
strictly before the end of the packet, and when the protocol is not recognised. -/
theorem L3.key_eq_none (P : L3) (ctx : Packet)
    (h : byte_at ctx P.proto_offset = ICMP ∨ byte_at ctx P.proto_offset = TCP
          ∨ byte_at ctx P.proto_offset = UDP →
        ctx.length ≤ P.l4_offset + l4_header_size (byte_at ctx P.proto_offset)) :
    P.key ctx = none := by
  cases P <;> simp only [L3.key, ipv4_key, ipv6_key] <;> split_ifs <;>
    first | rfl | exact l4_key_eq_none _ ctx _ _ h

theorem L3.prog_of_no_key (M A : Nat) (P : L3) (ctx : Packet) (kt : Nat) (s : State)
    (hl3 : P.l4_offset ≤ ctx.length) (hk : P.key ctx = none) :
    P.prog M A ctx kt s = (A, s) := by
  rw [L3.prog_eq, hk]
  have : ¬ P.l4_offset > ctx.length := by omega
  simp [this]

/-- C5, as amended. For every packet whose Ethernet and IP base headers are complete,
whose protocol number is ICMP, TCP or UDP, and which is shorter than the L4 header
that protocol requires (8, 20, 8 bytes after the IP header), every layer-3 parser
returns the configured action `XDPACTION` and leaves the state, both tables
included, unchanged. -/
theorem c5_short_l4_header (M A : Nat) (P : L3) (ctx : Packet) (kt : Nat) (s : State)
    (hl3 : P.l4_offset ≤ ctx.length)
    (hshort : (byte_at ctx P.proto_offset = ICMP ∧ ctx.length < P.l4_offset + sizeof_icmphdr)
      ∨ (byte_at ctx P.proto_offset = TCP ∧ ctx.length < P.l4_offset + sizeof_tcphdr)
      ∨ (byte_at ctx P.proto_offset = UDP ∧ ctx.length < P.l4_offset + sizeof_udphdr)) :
    P.prog M A ctx kt s = (A, s) := by
  refine L3.prog_of_no_key M A P ctx kt s hl3 (L3.key_eq_none P ctx (fun _ => ?_))
  rcases hshort with ⟨hp, hl⟩ | ⟨hp, hl⟩ | ⟨hp, hl⟩ <;> simp [l4_header_size, hp] <;> omega

/-- Witness of C5: the 40-byte TCP frame against tables that hold a flow. -/
theorem c5_short_l4_header_witness :
    parse_ipv4_flows0 8 XDP_PASS short_tcp_packet 100 State.one_tcp_flow
      = (XDP_PASS, State.one_tcp_flow) :=
  c5_short_l4_header 8 XDP_PASS .ipv4_flows0 short_tcp_packet 100 State.one_tcp_flow
    (by decide) (by decide)

/-- Counterexample to C5 as stated: with `XDPACTION` configured as `XDP_PASS`, an
IPv4 frame of protocol TCP with complete Ethernet and IP headers and only 6 of the
20 bytes of the TCP header is passed, not dropped. -/
theorem c5_counterexample :
    short_tcp_packet.length = 40
      ∧ byte_at short_tcp_packet 23 = TCP
      ∧ sizeof_ethhdr + sizeof_iphdr ≤ short_tcp_packet.length
      ∧ short_tcp_packet.length < sizeof_ethhdr + sizeof_iphdr + sizeof_tcphdr
      ∧ (parse_ipv4_flows0 8 XDP_PASS short_tcp_packet 100 State.empty).1 = XDP_PASS
      ∧ (parse_ipv4_flows0 8 XDP_PASS short_tcp_packet 100 State.empty).1 ≠ XDP_DROP := by
  decide

/-- C6. For every packet with a complete L3 base header whose next-protocol byte is
none of 1 (ICMP), 6 (TCP), 17 (UDP), every layer-3 parser returns the configured
action and leaves the state unchanged: `flows0` and `flows1` are identical before
and after. -/
theorem c6_unrecognised_protocol (M A : Nat) (P : L3) (ctx : Packet) (kt : Nat) (s : State)
    (hl3 : P.l4_offset ≤ ctx.length)
    (hicmp : byte_at ctx P.proto_offset ≠ ICMP)
    (htcp : byte_at ctx P.proto_offset ≠ TCP)
    (hudp : byte_at ctx P.proto_offset ≠ UDP) :
    P.prog M A ctx kt s = (A, s)
      ∧ (P.prog M A ctx kt s).2.flows0 = s.flows0
      ∧ (P.prog M A ctx kt s).2.flows1 = s.flows1 := by
  have h : P.prog M A ctx kt s = (A, s) :=
    L3.prog_of_no_key M A P ctx kt s hl3
      (L3.key_eq_none P ctx (fun h => by rcases h with h | h | h <;> contradiction))
  exact ⟨h, by rw [h], by rw [h]⟩

/-- Witness of C6: a 60-byte GRE packet (protocol 47) against tables that hold a flow. -/
theorem c6_unrecognised_protocol_witness :
    parse_ipv4_flows1 8 XDP_PASS gre_packet 100 State.one_tcp_flow
        = (XDP_PASS, State.one_tcp_flow)
      ∧ (parse_ipv4_flows1 8 XDP_PASS gre_packet 100 State.one_tcp_flow).2.flows0
        = State.one_tcp_flow.flows0
      ∧ (parse_ipv4_flows1 8 XDP_PASS gre_packet 100 State.one_tcp_flow).2.flows1
        = State.one_tcp_flow.flows1 :=
  c6_unrecognised_protocol 8 XDP_PASS .ipv4_flows1 gre_packet 100 State.one_tcp_flow
    (by decide) (by decide) (by decide) (by decide)

/-! ## C7: one TCP packet -/

/-- The accumulator of a freshly inserted flow after its first packet, when the packet
is shorter than 65536 bytes and the clock is below `2 ^ 64 - 1`. -/
theorem accms_bump_fresh (kt len : Nat) (hlen : len < 2 ^ 16) (hkt : kt < 2 ^ 64 - 1) :
    accms_bump kt len ⟨kt % 2 ^ 64, 0, 0, 0⟩ = ⟨kt, kt + 1, 1, len⟩ := by
  have h16 : len % 2 ^ 32 % 2 ^ 16 = len := by
    rw [Nat.mod_eq_of_lt (by omega : len < 2 ^ 32), Nat.mod_eq_of_lt hlen]
  have hk : kt % 2 ^ 64 = kt := Nat.mod_eq_of_lt (by omega)
  simp only [accms_bump, h16, hk, Nat.zero_add]
  rw [Nat.mod_eq_of_lt (by omega : kt + 1 < 2 ^ 64),
    Nat.mod_eq_of_lt (by omega : len < 2 ^ 64)]
  simp

/-- C7, as amended. For every Ethernet+IPv4+TCP packet whose IPv4 header has no options
(header-length field 5, so that the TCP header starts at offset 34), longer than 54
bytes (the TCP header must end strictly before the end of the packet) and shorter
than 65536 bytes, processed by `parse_ipv4_flows0` (or `parse_ipv4_flows1`) at a
clock reading `now` below `2 ^ 64 - 1` against a table that has no entry for its
key and has room for one: the key has `l2_proto = ETH_P_IP`, `l4_proto = TCP`, the
addresses of the IPv4 header and the source and destination port of the TCP
header, and its accumulator afterwards has `start = now`, `end = now + 1` (so
`start = end - 1`), `packets = 1` and `bytes` = the length of the packet. -/
theorem c7_first_tcp_packet (M A : Nat) (ctx : Packet) (kt : Nat) (s : State)
    (hlen : 54 < ctx.length) (hlen16 : ctx.length < 2 ^ 16)
    (hproto : byte_at ctx 23 = TCP) (hihl : ipv4_ihl ctx = 5) (hkt : kt < 2 ^ 64 - 1) :
    (s.flows0.lookup ⟨ETH_P_IP, TCP, be32_at ctx 26, be32_at ctx 30, ipv4_tcp_source ctx,
          ipv4_tcp_dest ctx⟩ = none → s.flows0.length < M →
        (parse_ipv4_flows0 M A ctx kt s).2.flows0.lookup
            ⟨ETH_P_IP, TCP, be32_at ctx 26, be32_at ctx 30, ipv4_tcp_source ctx,
              ipv4_tcp_dest ctx⟩
          = some ⟨kt, kt + 1, 1, ctx.length⟩)
      ∧ (s.flows1.lookup ⟨ETH_P_IP, TCP, be32_at ctx 26, be32_at ctx 30, ipv4_tcp_source ctx,
          ipv4_tcp_dest ctx⟩ = none → s.flows1.length < M →
        (parse_ipv4_flows1 M A ctx kt s).2.flows1.lookup
            ⟨ETH_P_IP, TCP, be32_at ctx 26, be32_at ctx 30, ipv4_tcp_source ctx,
              ipv4_tcp_dest ctx⟩
          = some ⟨kt, kt + 1, 1, ctx.length⟩) := by
  have hkey := ipv4_key_tcp ctx hlen hproto
  have h34 : ipv4_l4_start ctx = 34 := by
    simp only [ipv4_l4_start, hihl]
  have h1 : ¬ (sizeof_ethhdr + sizeof_iphdr > ctx.length) := by
    show ¬ (14 + 20 > ctx.length)
    omega
  simp only [ipv4_tcp_source, ipv4_tcp_dest, h34]
  constructor
  · intro hfresh hroom
    rw [parse_ipv4_flows0_eq, if_neg h1, hkey]
    simp only
    rw [flow_upsert_lookup_new M s.flows0 _ kt ctx.length hfresh hroom,
      accms_bump_fresh kt ctx.length hlen16 hkt]
  · intro hfresh hroom
    rw [parse_ipv4_flows1_eq, if_neg h1, hkey]
    simp only
    rw [flow_upsert_lookup_new M s.flows1 _ kt ctx.length hfresh hroom,
      accms_bump_fresh kt ctx.length hlen16 hkt]

/-- Witness of C7: the 100-byte TCP packet from port 443 to port 51000, without IPv4
options, at clock reading 7, against empty tables of capacity 8. -/
theorem c7_first_tcp_packet_witness :
    (tcp_packet 46).length = 100
      ∧ ipv4_ihl (tcp_packet 46) = 5
      ∧ ipv4_tcp_source (tcp_packet 46) = 443 ∧ ipv4_tcp_dest (tcp_packet 46) = 51000
      ∧ (parse_ipv4_flows0 8 XDP_DROP (tcp_packet 46) 7 State.empty).2.flows0.lookup
          ⟨ETH_P_IP, TCP, 0x0A000001, 0x0A000002, 443, 51000⟩ = some ⟨7, 8, 1, 100⟩
      ∧ (parse_ipv4_flows1 8 XDP_DROP (tcp_packet 46) 7 State.empty).2.flows1.lookup
          ⟨ETH_P_IP, TCP, 0x0A000001, 0x0A000002, 443, 51000⟩ = some ⟨7, 8, 1, 100⟩ :=
  ⟨by decide, by decide, by decide, by decide,
   (c7_first_tcp_packet 8 XDP_DROP (tcp_packet 46) 7 State.empty (by decide) (by decide)
      (by decide) (by decide) (by decide)).1 rfl (by decide),
   (c7_first_tcp_packet 8 XDP_DROP (tcp_packet 46) 7 State.empty (by decide) (by decide)
      (by decide) (by decide) (by decide)).2 rfl (by decide)⟩

/-- Counterexample to C7 as stated. First, a 54-byte packet holds all three headers
in full (14 + 20 + 20 bytes, protocol TCP, ports 443 and 51000), the table is empty
and has room, yet `parse_ipv4_flows0` creates no entry: the L4 check asks for the
TCP header to end strictly before the end of the packet. Second, the 100-byte
packet against a table of capacity 1 that holds another flow creates no entry.
Third, a 65549-byte packet is entered with `bytes = 13`. Fourth, at the clock
reading `2 ^ 64 - 1` the entry has `end = 0`, not `start + 1`. Fifth, a 100-byte
packet with one IPv4 option word has its TCP header at offset 38, with ports 80
and 8080, yet its key has the ports 257 and 257 read from the option bytes at
offset 34, and no entry is made under the ports of the TCP header. -/
theorem c7_counterexample :
    ((tcp_packet 0).length = sizeof_ethhdr + sizeof_iphdr + sizeof_tcphdr
        ∧ be16_at (tcp_packet 0) 12 = ETH_P_IP
        ∧ byte_at (tcp_packet 0) 23 = TCP
        ∧ be16_at (tcp_packet 0) 34 = 443
        ∧ be16_at (tcp_packet 0) 36 = 51000
        ∧ State.empty.flows0.lookup tcp_key = none
        ∧ State.empty.flows0.length < 8
        ∧ parse_ipv4_flows0 8 XDP_DROP (tcp_packet 0) 7 State.empty = (XDP_DROP, State.empty)
        ∧ (parse_ipv4_flows0 8 XDP_DROP (tcp_packet 0) 7 State.empty).2.flows0.lookup tcp_key
            = none)
      ∧ (ipv4_key (tcp_packet 46) = some tcp_key
        ∧ State.one_udp_flow.flows0.lookup tcp_key = none
        ∧ (parse_ipv4_flows0 1 XDP_DROP (tcp_packet 46) 7 State.one_udp_flow).2.flows0.lookup
            tcp_key = none)
      ∧ ((tcp_packet 65495).length = 65549
        ∧ ipv4_key (tcp_packet 65495) = some tcp_key
        ∧ (parse_ipv4_flows0 8 XDP_DROP (tcp_packet 65495) 7 State.empty).2.flows0.lookup
            tcp_key = some ⟨7, 8, 1, 13⟩)
      ∧ (parse_ipv4_flows0 8 XDP_DROP (tcp_packet 46) (2 ^ 64 - 1) State.empty).2.flows0.lookup
            tcp_key = some ⟨2 ^ 64 - 1, 0, 1, 100⟩
      ∧ ((tcp_packet_nop 42).length = 100
        ∧ be16_at (tcp_packet_nop 42) 12 = ETH_P_IP
        ∧ byte_at (tcp_packet_nop 42) 23 = TCP
        ∧ ipv4_ihl (tcp_packet_nop 42) = 6
        ∧ ipv4_l4_start (tcp_packet_nop 42) = 38
        ∧ ipv4_tcp_source (tcp_packet_nop 42) = 80
        ∧ ipv4_tcp_dest (tcp_packet_nop 42) = 8080
        ∧ (parse_ipv4_flows0 8 XDP_DROP (tcp_packet_nop 42) 7 State.empty).2.flows0
            = [(⟨ETH_P_IP, TCP, 0x0A000001, 0x0A000002, 257, 257⟩, ⟨7, 8, 1, 100⟩)]
        ∧ (parse_ipv4_flows0 8 XDP_DROP (tcp_packet_nop 42) 7 State.empty).2.flows0.lookup
            ⟨ETH_P_IP, TCP, 0x0A000001, 0x0A000002, 80, 8080⟩ = none) := by
  have hlen : (tcp_packet 65495).length = 65549 := tcp_packet_length 65495
  have hkey : ipv4_key (tcp_packet 65495) = some tcp_key := tcp_packet_key 65495 (by decide)
  refine ⟨by decide, by decide, ⟨hlen, hkey, ?_⟩, by decide, by decide⟩
  rw [parse_ipv4_flows0_eq, hlen, hkey]
  rfl

/-! ## C8: the table invariant -/

theorem Table.inv_mono (n n' T T' : Nat) (t : Table) (h : t.inv n T) (hn : n ≤ n')
    (hT : T ≤ T') : t.inv n' T' := by
  intro e he
  obtain ⟨h1, h2, h3, h4⟩ := h e he
  exact ⟨by omega, h2, h3, by omega⟩

theorem Table.inv_well_formed (n T : Nat) (t : Table) (h : t.inv n T) : t.well_formed := by
  intro e he
  obtain ⟨_, h2, h3, _⟩ := h e he
  exact ⟨by omega, h3, by omega⟩

theorem flow_upsert_inv (M n T : Nat) (t : Table) (p : flow_attrs) (kt len : Nat)
    (h : t.inv n T) (hT : T ≤ kt) (hkt : kt < 2 ^ 64 - 1) (hn : n + 1 < 2 ^ 64) :
    (flow_upsert M t p kt len).inv (n + 1) kt := by
  have hk : kt % 2 ^ 64 = kt := Nat.mod_eq_of_lt (by omega)
  have hk1 : (kt + 1) % 2 ^ 64 = kt + 1 := Nat.mod_eq_of_lt (by omega)
  have hbump : ∀ a : flow_accms, a.start ≤ kt → a.packets ≤ n →
      (accms_bump kt len a).start ≤ kt
        ∧ (accms_bump kt len a).start < (accms_bump kt len a).end_
        ∧ 1 ≤ (accms_bump kt len a).packets ∧ (accms_bump kt len a).packets ≤ n + 1 := by
    intro a hs hp
    have hp1 : (a.packets + 1) % 2 ^ 64 = a.packets + 1 := Nat.mod_eq_of_lt (by omega)
    simp only [accms_bump, hk, hk1, hp1]
    omega
  have hold : t.inv (n + 1) kt := Table.inv_mono n (n + 1) T kt t h (by omega) hT
  unfold flow_upsert lookup_or_try_init
  cases hl : t.lookup p with
  | some a0 =>
    intro e he
    rcases Table.mem_update t p _ e he with he | ⟨a, ha, hf⟩
    · exact hold e he
    · obtain ⟨h1, _, _, h4⟩ := h (e.1, a) ha
      rw [hf]
      exact hbump a (by simp only at h1; omega) (by simpa using h4)
  | none =>
    by_cases hfree : t.length < M
    · simp only [hfree, if_true, Table.update]
      intro e he
      simp only [List.mem_cons] at he
      rcases he with rfl | he
      · exact hbump ⟨kt % 2 ^ 64, 0, 0, 0⟩ (by simp only [hk]; omega) (by simp)
      · exact hold e he
    · simp only [hfree, if_false]
      exact hold

theorem L3.prog_inv (M A n T : Nat) (P : L3) (ctx : Packet) (kt : Nat) (s : State)
    (h : s.inv n T) (hT : T ≤ kt) (hkt : kt < 2 ^ 64 - 1) (hn : n + 1 < 2 ^ 64) :
    (P.prog M A ctx kt s).2.inv (n + 1) kt := by
  have hs : s.inv (n + 1) kt :=
    ⟨Table.inv_mono n (n + 1) T kt _ h.1 (by omega) hT,
     Table.inv_mono n (n + 1) T kt _ h.2 (by omega) hT⟩
  rw [L3.prog_eq]
  split_ifs
  · exact hs
  · split
    · exact hs
    · cases P
      · exact ⟨flow_upsert_inv M n T _ _ kt _ h.1 hT hkt hn, hs.2⟩
      · exact ⟨hs.1, flow_upsert_inv M n T _ _ kt _ h.2 hT hkt hn⟩
      · exact ⟨flow_upsert_inv M n T _ _ kt _ h.1 hT hkt hn, hs.2⟩
      · exact ⟨hs.1, flow_upsert_inv M n T _ _ kt _ h.2 hT hkt hn⟩

theorem Loaded.loaded_prog_inv (M A n T : Nat) (L : Loaded) (ctx : Packet) (kt : Nat) (s : State)
    (h : s.inv n T) (hT : T ≤ kt) (hkt : kt < 2 ^ 64 - 1) (hn : n + 1 < 2 ^ 64) :
    (L.prog M A ctx kt s).2.inv (n + 1) kt := by
  cases L with
  | null =>
    exact ⟨Table.inv_mono n (n + 1) T kt _ h.1 (by omega) hT,
      Table.inv_mono n (n + 1) T kt _ h.2 (by omega) hT⟩
  | l3 P => exact L3.prog_inv M A n T P ctx kt s h hT hkt hn

theorem tail_call_inv (M A n T : Nat) (w : Wiring) (idx : Nat) (ctx : Packet) (kt : Nat)
    (s : State) (fallthrough : Nat × State)
    (h : s.inv n T) (hf : fallthrough.2.inv (n + 1) kt)
    (hT : T ≤ kt) (hkt : kt < 2 ^ 64 - 1) (hn : n + 1 < 2 ^ 64) :
    (tail_call (w.array M A) idx ctx kt s fallthrough).2.inv (n + 1) kt := by
  unfold tail_call Wiring.array
  split_ifs
  · cases hw : w idx with
    | none => simpa [hw] using hf
    | some L => simpa [hw] using Loaded.loaded_prog_inv M A n T L ctx kt s h hT hkt hn
  · exact hf

theorem Step.exec_inv (M A n T : Nat) (st : Step) (s : State)
    (h : s.inv n T) (hT : T ≤ st.ktime) (hkt : st.ktime < 2 ^ 64 - 1) (hn : n + 1 < 2 ^ 64) :
    (st.exec M A s).2.inv (n + 1) st.ktime := by
  have hs : s.inv (n + 1) st.ktime :=
    ⟨Table.inv_mono n (n + 1) T st.ktime _ h.1 (by omega) hT,
     Table.inv_mono n (n + 1) T st.ktime _ h.2 (by omega) hT⟩
  unfold Step.exec
  cases he : st.entry with
  | l3 P => exact L3.prog_inv M A n T P st.ctx st.ktime s h hT hkt hn
  | xdp w =>
    simp only [xdp_parser_prog]
    split_ifs
    · exact hs
    · exact tail_call_inv M A n T w 4 st.ctx st.ktime s _ h hs hT hkt hn
    · exact tail_call_inv M A n T w 6 st.ctx st.ktime s _ h hs hT hkt hn
    · exact hs
    · exact hs

theorem run_inv (M A : Nat) :
    ∀ (steps : List Step) (s : State) (n T : Nat), s.inv n T →
      (∀ st ∈ steps, T ≤ st.ktime ∧ st.ktime < 2 ^ 64 - 1) →
      List.Pairwise (fun a b => a ≤ b) (steps.map Step.ktime) →
      n + steps.length < 2 ^ 64 →
      ∃ n' T', (run M A steps s).inv n' T' := by
  intro steps
  induction steps with
  | nil => intro s n T h _ _ _; exact ⟨n, T, h⟩
  | cons st rest ih =>
    intro s n T h hall hts hn
    simp only [List.map_cons, List.pairwise_cons, List.length_cons] at hts hn
    obtain ⟨hT, hkt⟩ := hall st (by simp)
    simp only [run]
    exact ih _ (n + 1) st.ktime (Step.exec_inv M A n T st s h hT hkt (by omega))
      (fun st' hst' => ⟨hts.1 st'.ktime (List.mem_map_of_mem _ hst'),
        (hall st' (by simp [hst'])).2⟩)
      hts.2 (by omega)

/-- C8, as amended. In every state reached from two empty tables by fewer than `2 ^ 64`
invocations of `xdp_parser` (under any wiring of `parse_layer3` with `null_parser`
and the layer-3 parsers) and of the four layer-3 parsers, with non-decreasing clock
readings below `2 ^ 64 - 1`, every entry of `flows0` and of `flows1` has
`start ≤ end`, `packets ≥ 1` and `end > 0`. -/
theorem c8_reachable_entries_well_formed (M A : Nat) (steps : List Step) (s : State)
    (h0 : s.flows0 = []) (h1 : s.flows1 = [])
    (hts : List.Pairwise (fun a b => a ≤ b) (steps.map Step.ktime))
    (hclock : ∀ st ∈ steps, st.ktime < 2 ^ 64 - 1)
    (hcount : steps.length < 2 ^ 64) :
    (run M A steps s).flows0.well_formed ∧ (run M A steps s).flows1.well_formed := by
  have hinit : s.inv 0 0 := by
    constructor
    · rw [h0]; intro e he; simp at he
    · rw [h1]; intro e he; simp at he
  obtain ⟨n, T, hinv⟩ := run_inv M A steps s 0 0 hinit
    (fun st hst => ⟨Nat.zero_le _, hclock st hst⟩) hts (by omega)
  exact ⟨Table.inv_well_formed n T _ hinv.1, Table.inv_well_formed n T _ hinv.2⟩

/-- Witness of C8: the sample sequence from the empty state; it leaves two entries in
`flows0` and two in `flows1`. -/
theorem c8_reachable_entries_well_formed_witness :
    (run 8 XDP_DROP sample_steps State.empty).flows0.length = 2
      ∧ (run 8 XDP_DROP sample_steps State.empty).flows1.length = 2
      ∧ (run 8 XDP_DROP sample_steps State.empty).flows0.well_formed
      ∧ (run 8 XDP_DROP sample_steps State.empty).flows1.well_formed :=
  ⟨by decide, by decide,
   c8_reachable_entries_well_formed 8 XDP_DROP sample_steps State.empty rfl rfl
     (by decide) (by decide) (by decide)⟩

/-- Counterexample to C8 as stated: one UDP packet processed by `parse_ipv4_flows0`
from the empty state at the clock reading `2 ^ 64 - 1` leaves an entry with
`start = 2 ^ 64 - 1` and `end = 0`, since `now + 1` wraps in `u64`: neither
`start ≤ end` nor `end > 0` holds. -/
theorem c8_counterexample :
    (run 8 XDP_DROP [⟨.l3 .ipv4_flows0, udp_packet 18, 2 ^ 64 - 1⟩] State.empty).flows0
        = [(udp_key, ⟨2 ^ 64 - 1, 0, 1, 60⟩)]
      ∧ ¬ (run 8 XDP_DROP [⟨.l3 .ipv4_flows0, udp_packet 18, 2 ^ 64 - 1⟩]
            State.empty).flows0.well_formed := by
  have h : (run 8 XDP_DROP [⟨.l3 .ipv4_flows0, udp_packet 18, 2 ^ 64 - 1⟩] State.empty).flows0
      = [(udp_key, ⟨2 ^ 64 - 1, 0, 1, 60⟩)] := by decide
  refine ⟨h, fun hw => ?_⟩
  rw [h] at hw
  have := (hw (udp_key, ⟨2 ^ 64 - 1, 0, 1, 60⟩) (by simp)).2.2
  simp at this

/-! ## C9: ethertypes other than IPv4 and IPv6 -/

/-- C9. For every packet of at least 14 bytes whose ethertype is neither IPv4 (0x0800)
nor IPv6 (0x86DD), so in particular for the VLAN tags 0x8100 and 0x88A8, and for
every content of the program array `parse_layer3`, `xdp_parser` returns `XDP_DROP`,
appends exactly one message to the trace (the VLAN message for the two VLAN tags,
the other message otherwise) and leaves `flows0` and `flows1` unchanged; the
result does not depend on the program array, no program of which is entered. -/
theorem c9_other_ethertypes_dropped (parse_layer3 : ProgArray) (ctx : Packet) (kt : Nat)
    (s : State) (hlen : 14 ≤ ctx.length)
    (hv4 : be16_at ctx 12 ≠ ETH_P_IP) (hv6 : be16_at ctx 12 ≠ ETH_P_IPV6) :
    xdp_parser_prog parse_layer3 ctx kt s
        = (XDP_DROP,
            ⟨s.flows0, s.flows1,
              s.trace ++ [if be16_at ctx 12 = ETH_P_8021Q ∨ be16_at ctx 12 = ETH_P_8021AD
                then "Received Ethertype VLAN!"
                else "IPv4/IPv6/VLAN Ethertypes were not hit!"]⟩)
      ∧ (xdp_parser_prog parse_layer3 ctx kt s).2.flows0 = s.flows0
      ∧ (xdp_parser_prog parse_layer3 ctx kt s).2.flows1 = s.flows1 := by
  have h1 : ¬ (sizeof_ethhdr > ctx.length) := by
    show ¬ (14 > ctx.length)
    omega
  unfold xdp_parser_prog
  simp only [h1, hv4, hv6, if_false]
  split_ifs <;> exact ⟨rfl, rfl, rfl⟩

/-- Witness of C9: a VLAN-tagged frame and an ARP frame through `xdp_parser` wired to
the buffer-0 parsers, against tables that hold a flow. -/
theorem c9_other_ethertypes_dropped_witness :
    xdp_parser_prog (wiring_flows0.array 8 XDP_PASS) vlan_packet 100 State.one_tcp_flow
        = (XDP_DROP, ⟨State.one_tcp_flow.flows0, State.one_tcp_flow.flows1,
            ["Received Ethertype VLAN!"]⟩)
      ∧ xdp_parser_prog (wiring_flows0.array 8 XDP_PASS) arp_packet 100 State.one_tcp_flow
        = (XDP_DROP, ⟨State.one_tcp_flow.flows0, State.one_tcp_flow.flows1,
            ["IPv4/IPv6/VLAN Ethertypes were not hit!"]⟩) :=
  ⟨(c9_other_ethertypes_dropped (wiring_flows0.array 8 XDP_PASS) vlan_packet 100
      State.one_tcp_flow (by decide) (by decide) (by decide)).1,
   (c9_other_ethertypes_dropped (wiring_flows0.array 8 XDP_PASS) arp_packet 100
      State.one_tcp_flow (by decide) (by decide) (by decide)).1⟩

/-! ## C10: ICMP type in the key -/

theorem l4_key_icmp (p : flow_attrs) (ctx : Packet) (offset : Nat)
    (hlen : offset + sizeof_icmphdr < ctx.length) :
    l4_key p ctx offset ICMP
      = some { p with l4_proto := ICMP, src_port := byte_at ctx offset * 256,
                      dst_port := byte_at ctx (offset + 1) * 256 } := by
  simp [l4_key, hlen]

/-- The key of an ICMP packet with complete headers and at least one byte behind
them: protocol 1, type and code in the upper bytes of the port fields. -/
theorem L3.key_icmp (P : L3) (ctx : Packet) (k : flow_attrs)
    (hproto : byte_at ctx P.proto_offset = ICMP)
    (hlen : P.l4_offset + sizeof_icmphdr < ctx.length) (hk : P.key ctx = some k) :
    k.l4_proto = ICMP ∧ k.src_port = byte_at ctx P.l4_offset * 256
      ∧ k.dst_port = byte_at ctx (P.l4_offset + 1) * 256 := by
  cases P <;>
    simp only [L3.key, L3.l4_offset, L3.proto_offset, ipv4_key, ipv6_key] at hproto hlen hk <;>
    · rw [if_neg (by omega), hproto] at hk
      first
        | rw [l4_key_icmp _ ctx 34 hlen] at hk
        | rw [l4_key_icmp _ ctx 54 hlen] at hk
      cases hk
      exact ⟨rfl, rfl, rfl⟩

/-- C10, as amended. For every two ICMP packets with complete headers, no IPv4 options
(the ICMP header starts right behind the fixed-size L3 base header) and at least
one byte behind the 8-byte ICMP header, with different ICMP type bytes, processed
one after the other by the same layer-3 parser against a table that holds neither
of their keys and has room for two entries: the two keys differ in `src_port`, and
the table afterwards holds an accumulator under each key, each with `packets = 1`. -/
theorem c10_icmp_types_are_distinct_flows (M A : Nat) (P : L3) (ctx1 ctx2 : Packet)
    (kt1 kt2 : Nat) (s : State) (k1 k2 : flow_attrs)
    (hproto1 : byte_at ctx1 P.proto_offset = ICMP)
    (hproto2 : byte_at ctx2 P.proto_offset = ICMP)
    (hopt1 : P.l4_start ctx1 = P.l4_offset) (hopt2 : P.l4_start ctx2 = P.l4_offset)
    (hlen1 : P.l4_offset + sizeof_icmphdr < ctx1.length)
    (hlen2 : P.l4_offset + sizeof_icmphdr < ctx2.length)
    (htype : P.icmp_type ctx1 ≠ P.icmp_type ctx2)
    (hk1 : P.key ctx1 = some k1) (hk2 : P.key ctx2 = some k2)
    (hfresh1 : (P.table s).lookup k1 = none) (hfresh2 : (P.table s).lookup k2 = none)
    (hroom : (P.table s).length + 2 ≤ M) :
    k1.src_port ≠ k2.src_port ∧ k1 ≠ k2
      ∧ ∃ a1 a2,
          (P.table (P.run M A [(ctx1, kt1), (ctx2, kt2)] s)).lookup k1 = some a1
            ∧ (P.table (P.run M A [(ctx1, kt1), (ctx2, kt2)] s)).lookup k2 = some a2
            ∧ a1.packets = 1 ∧ a2.packets = 1 := by
  have hp1 := (L3.key_icmp P ctx1 k1 hproto1 hlen1 hk1).2.1
  have hp2 := (L3.key_icmp P ctx2 k2 hproto2 hlen2 hk2).2.1
  simp only [L3.icmp_type, hopt1, hopt2] at htype
  have hport : k1.src_port ≠ k2.src_port := by
    rw [hp1, hp2]
    omega
  have hne : k1 ≠ k2 := fun h => hport (by rw [h])
  have hne' : k2 ≠ k1 := fun h => hne h.symm
  refine ⟨hport, hne, ?_⟩
  simp only [L3.run, L3.prog_of_key M A P ctx1 kt1 s k1 hk1, L3.prog_of_key M A P ctx2 kt2 _ k2 hk2,
    L3.table_set_table]
  have hlen := (flow_upsert_length_le M (P.table s) k1 kt1 ctx1.length).2
  have h21 : (flow_upsert M (P.table s) k1 kt1 ctx1.length).lookup k2 = none := by
    rw [flow_upsert_lookup_ne M _ k1 k2 kt1 _ hne', hfresh2]
  have h2 := flow_upsert_lookup_new M _ k2 kt2 ctx2.length h21 (by omega)
  have h1 : (flow_upsert M (flow_upsert M (P.table s) k1 kt1 ctx1.length) k2 kt2
      ctx2.length).lookup k1 = some (accms_bump kt1 ctx1.length ⟨kt1 % 2 ^ 64, 0, 0, 0⟩) := by
    rw [flow_upsert_lookup_ne M _ k2 k1 kt2 _ hne,
      flow_upsert_lookup_new M _ k1 kt1 ctx1.length hfresh1 (by omega)]
  exact ⟨_, _, h1, h2, by simp [accms_bump], by simp [accms_bump]⟩

/-- Witness of C10: a 98-byte echo request (type 8) and echo reply (type 0) between the
same addresses, without IPv4 options, through `parse_ipv4_flows0` against an empty
table of capacity 8. -/
theorem c10_icmp_types_are_distinct_flows_witness :
    (icmp_key 8).src_port ≠ (icmp_key 0).src_port ∧ icmp_key 8 ≠ icmp_key 0
      ∧ ∃ a1 a2,
          (L3.table .ipv4_flows0 (L3.run 8 XDP_DROP .ipv4_flows0
              [(icmp_packet 8 56, 100), (icmp_packet 0 56, 101)] State.empty)).lookup
                (icmp_key 8) = some a1
            ∧ (L3.table .ipv4_flows0 (L3.run 8 XDP_DROP .ipv4_flows0
              [(icmp_packet 8 56, 100), (icmp_packet 0 56, 101)] State.empty)).lookup
                (icmp_key 0) = some a2
            ∧ a1.packets = 1 ∧ a2.packets = 1 :=
  c10_icmp_types_are_distinct_flows 8 XDP_DROP .ipv4_flows0 (icmp_packet 8 56)
    (icmp_packet 0 56) 100 101 State.empty (icmp_key 8) (icmp_key 0)
    (by decide) (by decide) (by decide) (by decide) (by decide) (by decide) (by decide)
    rfl rfl rfl rfl (by decide)

/-- Counterexample to C10 as stated. First, an echo request and an echo reply of 42
bytes each hold the Ethernet, IPv4 and ICMP headers in full, yet
`parse_ipv4_flows0` derives no key for either and the empty table stays empty.
Second, with 98-byte packets and a table of capacity 1 that holds neither key, only
the request gets an accumulator: the reply finds the table full. Third, an echo
request and an echo reply of 98 bytes with one IPv4 option word have their ICMP
types 8 and 0 at offset 38; both get the key read from the option bytes at offset
34, and the table of capacity 8 ends with one accumulator with `packets = 2`. -/
theorem c10_counterexample :
    ((icmp_packet 8 0).length = sizeof_ethhdr + sizeof_iphdr + sizeof_icmphdr
        ∧ (icmp_packet 0 0).length = sizeof_ethhdr + sizeof_iphdr + sizeof_icmphdr
        ∧ byte_at (icmp_packet 8 0) 23 = ICMP ∧ byte_at (icmp_packet 0 0) 23 = ICMP
        ∧ byte_at (icmp_packet 8 0) 34 = 8 ∧ byte_at (icmp_packet 0 0) 34 = 0
        ∧ ipv4_key (icmp_packet 8 0) = none ∧ ipv4_key (icmp_packet 0 0) = none
        ∧ (L3.run 8 XDP_DROP .ipv4_flows0
            [(icmp_packet 8 0, 100), (icmp_packet 0 0, 101)] State.empty).flows0 = [])
      ∧ (ipv4_key (icmp_packet 8 56) = some (icmp_key 8)
        ∧ ipv4_key (icmp_packet 0 56) = some (icmp_key 0)
        ∧ State.empty.flows0.lookup (icmp_key 8) = none
        ∧ State.empty.flows0.lookup (icmp_key 0) = none
        ∧ (L3.run 1 XDP_DROP .ipv4_flows0
            [(icmp_packet 8 56, 100), (icmp_packet 0 56, 101)] State.empty).flows0
              = [(icmp_key 8, ⟨100, 101, 1, 98⟩)]
        ∧ (L3.run 1 XDP_DROP .ipv4_flows0
            [(icmp_packet 8 56, 100), (icmp_packet 0 56, 101)] State.empty).flows0.lookup
              (icmp_key 0) = none)
      ∧ ((icmp_packet_nop 8 52).length = 98 ∧ (icmp_packet_nop 0 52).length = 98
        ∧ byte_at (icmp_packet_nop 8 52) 23 = ICMP ∧ byte_at (icmp_packet_nop 0 52) 23 = ICMP
        ∧ L3.l4_start .ipv4_flows0 (icmp_packet_nop 8 52) = 38
        ∧ L3.l4_start .ipv4_flows0 (icmp_packet_nop 0 52) = 38
        ∧ L3.icmp_type .ipv4_flows0 (icmp_packet_nop 8 52) = 8
        ∧ L3.icmp_type .ipv4_flows0 (icmp_packet_nop 0 52) = 0
        ∧ ipv4_key (icmp_packet_nop 8 52)
            = some ⟨ETH_P_IP, ICMP, 0x0A000001, 0x0A000002, 256, 256⟩
        ∧ ipv4_key (icmp_packet_nop 0 52)
            = some ⟨ETH_P_IP, ICMP, 0x0A000001, 0x0A000002, 256, 256⟩
        ∧ (L3.run 8 XDP_DROP .ipv4_flows0
            [(icmp_packet_nop 8 52, 100), (icmp_packet_nop 0 52, 101)] State.empty).flows0
              = [(⟨ETH_P_IP, ICMP, 0x0A000001, 0x0A000002, 256, 256⟩, ⟨100, 102, 2, 196⟩)]) := by
  decide

/-! ## C11: the IPv6 key holds 32 bits of each address -/

/-- The key of the IPv6 parsers is a function of the length of the packet and of its
bytes 20, 22..25, 38..41 and 54..57. -/
theorem ipv6_key_congr (ctx1 ctx2 : Packet) (hlen : ctx1.length = ctx2.length)
    (h20 : byte_at ctx1 20 = byte_at ctx2 20)
    (h22 : byte_at ctx1 22 = byte_at ctx2 22) (h23 : byte_at ctx1 23 = byte_at ctx2 23)
    (h24 : byte_at ctx1 24 = byte_at ctx2 24) (h25 : byte_at ctx1 25 = byte_at ctx2 25)
    (h38 : byte_at ctx1 38 = byte_at ctx2 38) (h39 : byte_at ctx1 39 = byte_at ctx2 39)
    (h40 : byte_at ctx1 40 = byte_at ctx2 40) (h41 : byte_at ctx1 41 = byte_at ctx2 41)
    (h54 : byte_at ctx1 54 = byte_at ctx2 54) (h55 : byte_at ctx1 55 = byte_at ctx2 55)
    (h56 : byte_at ctx1 56 = byte_at ctx2 56) (h57 : byte_at ctx1 57 = byte_at ctx2 57) :
    ipv6_key ctx1 = ipv6_key ctx2 := by
  simp only [ipv6_key, l4_key, be32_at, be16_at, Nat.reduceAdd, hlen, h20, h22, h23, h24, h25,
    h38, h39, h40, h41, h54, h55, h56, h57]

/-- C11. For every two IPv6 packets of the same length that agree in every byte outside
bytes 4..15 of the source address (packet offsets 26..37) and bytes 4..15 of the
destination address (packet offsets 42..53), `parse_ipv6_flows0` and
`parse_ipv6_flows1` derive the same key, and on every state and clock reading each
parser does with the one packet exactly what it does with the other: both are
counted in the same accumulator. -/
theorem c11_ipv6_low_address_bits_ignored (ctx1 ctx2 : Packet)
    (hlen : ctx1.length = ctx2.length)
    (hsame : ∀ i, ¬ (26 ≤ i ∧ i ≤ 37) → ¬ (42 ≤ i ∧ i ≤ 53) → byte_at ctx1 i = byte_at ctx2 i) :
    ipv6_key ctx1 = ipv6_key ctx2
      ∧ (∀ M A kt s, parse_ipv6_flows0 M A ctx1 kt s = parse_ipv6_flows0 M A ctx2 kt s)
      ∧ (∀ M A kt s, parse_ipv6_flows1 M A ctx1 kt s = parse_ipv6_flows1 M A ctx2 kt s) := by
  have hkey : ipv6_key ctx1 = ipv6_key ctx2 :=
    ipv6_key_congr ctx1 ctx2 hlen
      (hsame 20 (by omega) (by omega))
      (hsame 22 (by omega) (by omega)) (hsame 23 (by omega) (by omega))
      (hsame 24 (by omega) (by omega)) (hsame 25 (by omega) (by omega))
      (hsame 38 (by omega) (by omega)) (hsame 39 (by omega) (by omega))
      (hsame 40 (by omega) (by omega)) (hsame 41 (by omega) (by omega))
      (hsame 54 (by omega) (by omega)) (hsame 55 (by omega) (by omega))
      (hsame 56 (by omega) (by omega)) (hsame 57 (by omega) (by omega))
  refine ⟨hkey, fun M A kt s => ?_, fun M A kt s => ?_⟩
  · rw [parse_ipv6_flows0_eq, parse_ipv6_flows0_eq, hkey, hlen]
  · rw [parse_ipv6_flows1_eq, parse_ipv6_flows1_eq, hkey, hlen]

theorem udp6_packets_agree (i : Nat) (h1 : ¬ (26 ≤ i ∧ i ≤ 37)) (h2 : ¬ (42 ≤ i ∧ i ≤ 53)) :
    byte_at (udp6_packet 10) i = byte_at (udp6_packet_alt 10) i := by
  rcases Nat.lt_or_ge i 72 with hi | hi
  · interval_cases i <;>
      first
        | rfl
        | exact absurd ⟨by decide, by decide⟩ h1
        | exact absurd ⟨by decide, by decide⟩ h2
  · have e1 : (udp6_packet 10).getD i 0 = 0 := List.getD_eq_default _ _ (by simpa using hi)
    have e2 : (udp6_packet_alt 10).getD i 0 = 0 := List.getD_eq_default _ _ (by simpa using hi)
    simp only [byte_at, e1, e2]

/-- Witness of C11: two 72-byte IPv6 UDP packets that differ in the low 96 bits of both
addresses have the key `udp6_key`, are treated alike by `parse_ipv6_flows0`, and
after both the one entry of the table has `packets = 2`. -/
theorem c11_ipv6_low_address_bits_ignored_witness :
    udp6_packet 10 ≠ udp6_packet_alt 10
      ∧ ipv6_key (udp6_packet 10) = some udp6_key
      ∧ ipv6_key (udp6_packet 10) = ipv6_key (udp6_packet_alt 10)
      ∧ parse_ipv6_flows0 8 XDP_DROP (udp6_packet 10) 5 State.empty
          = parse_ipv6_flows0 8 XDP_DROP (udp6_packet_alt 10) 5 State.empty
      ∧ (L3.run 8 XDP_DROP .ipv6_flows0 [(udp6_packet 10, 5), (udp6_packet_alt 10, 6)]
          State.empty).flows0 = [(udp6_key, ⟨5, 7, 2, 144⟩)] :=
  ⟨by decide, by decide,
   (c11_ipv6_low_address_bits_ignored (udp6_packet 10) (udp6_packet_alt 10) (by decide)
      udp6_packets_agree).1,
   (c11_ipv6_low_address_bits_ignored (udp6_packet 10) (udp6_packet_alt 10) (by decide)
      udp6_packets_agree).2.1 8 XDP_DROP 5 State.empty,
   by decide⟩

/-! ## C12: the dispatch of `xdp_parser` -/

theorem tail_call_of_some (parse_layer3 : ProgArray) (idx : Nat) (p : Prog) (ctx : Packet)
    (kt : Nat) (s : State) (fallthrough : Nat × State) (hidx : idx < 7)
    (hp : parse_layer3 idx = some p) :
    tail_call parse_layer3 idx ctx kt s fallthrough = p ctx kt s := by
  simp [tail_call, hidx, hp]

/-- C12. With slot 4 of `parse_layer3` holding a program `p4` and slot 6 a program `p6`,
`xdp_parser` on every packet of at least 14 bytes: with ethertype 0x0800 has
exactly the outcome (action and state) of `p4` on that packet, and that outcome does
not depend on any slot other than 4; with ethertype 0x86DD has exactly the outcome
of `p6`, and it does not depend on any slot other than 6; with any other ethertype
has an outcome that depends on no slot at all. -/
theorem c12_dispatch_by_ethertype (parse_layer3 : ProgArray) (p4 p6 : Prog)
    (h4 : parse_layer3 4 = some p4) (h6 : parse_layer3 6 = some p6)
    (ctx : Packet) (kt : Nat) (s : State) (hlen : 14 ≤ ctx.length) :
    (be16_at ctx 12 = ETH_P_IP →
        xdp_parser_prog parse_layer3 ctx kt s = p4 ctx kt s
          ∧ ∀ other : ProgArray, other 4 = some p4 →
              xdp_parser_prog other ctx kt s = p4 ctx kt s)
      ∧ (be16_at ctx 12 = ETH_P_IPV6 →
        xdp_parser_prog parse_layer3 ctx kt s = p6 ctx kt s
          ∧ ∀ other : ProgArray, other 6 = some p6 →
              xdp_parser_prog other ctx kt s = p6 ctx kt s)
      ∧ (be16_at ctx 12 ≠ ETH_P_IP → be16_at ctx 12 ≠ ETH_P_IPV6 →
        ∀ other : ProgArray,
          xdp_parser_prog other ctx kt s = xdp_parser_prog parse_layer3 ctx kt s) := by
  have h1 : ¬ (sizeof_ethhdr > ctx.length) := by
    show ¬ (14 > ctx.length)
    omega
  have hv4 : ∀ arr : ProgArray, arr 4 = some p4 → be16_at ctx 12 = ETH_P_IP →
      xdp_parser_prog arr ctx kt s = p4 ctx kt s := by
    intro arr harr he
    simp only [xdp_parser_prog, h1, he, if_false, if_true]
    exact tail_call_of_some arr 4 p4 ctx kt s _ (by decide) harr
  have hv6 : ∀ arr : ProgArray, arr 6 = some p6 → be16_at ctx 12 = ETH_P_IPV6 →
      xdp_parser_prog arr ctx kt s = p6 ctx kt s := by
    intro arr harr he
    have hne : ¬ (ETH_P_IPV6 = ETH_P_IP) := by decide
    simp only [xdp_parser_prog, h1, he, hne, if_false, if_true]
    exact tail_call_of_some arr 6 p6 ctx kt s _ (by decide) harr
  refine ⟨fun he => ⟨hv4 _ h4 he, fun other ho => hv4 other ho he⟩,
    fun he => ⟨hv6 _ h6 he, fun other ho => hv6 other ho he⟩, fun n4 n6 other => ?_⟩
  simp only [xdp_parser_prog, h1, n4, n6, if_false]

/-- Witness of C12: under the buffer-0 wiring the 100-byte TCP packet has the outcome of
`parse_ipv4_flows0`, the IPv6 UDP packet that of `parse_ipv6_flows0`, and the ARP
frame the same outcome as under the buffer-1 wiring. -/
theorem c12_dispatch_by_ethertype_witness :
    xdp_parser_prog (wiring_flows0.array 8 XDP_PASS) (tcp_packet 46) 5 State.empty
        = parse_ipv4_flows0 8 XDP_PASS (tcp_packet 46) 5 State.empty
      ∧ xdp_parser_prog (wiring_flows0.array 8 XDP_PASS) (udp6_packet 10) 5 State.empty
        = parse_ipv6_flows0 8 XDP_PASS (udp6_packet 10) 5 State.empty
      ∧ xdp_parser_prog (wiring_flows1.array 8 XDP_PASS) arp_packet 5 State.empty
        = xdp_parser_prog (wiring_flows0.array 8 XDP_PASS) arp_packet 5 State.empty :=
  ⟨((c12_dispatch_by_ethertype (wiring_flows0.array 8 XDP_PASS)
        (parse_ipv4_flows0 8 XDP_PASS) (parse_ipv6_flows0 8 XDP_PASS) rfl rfl
        (tcp_packet 46) 5 State.empty (by decide)).1 (by decide)).1,
   ((c12_dispatch_by_ethertype (wiring_flows0.array 8 XDP_PASS)
        (parse_ipv4_flows0 8 XDP_PASS) (parse_ipv6_flows0 8 XDP_PASS) rfl rfl
        (udp6_packet 10) 5 State.empty (by decide)).2.1 (by decide)).1,
   (c12_dispatch_by_ethertype (wiring_flows0.array 8 XDP_PASS)
        (parse_ipv4_flows0 8 XDP_PASS) (parse_ipv6_flows0 8 XDP_PASS) rfl rfl
        arp_packet 5 State.empty (by decide)).2.2 (by decide) (by decide)
        (wiring_flows1.array 8 XDP_PASS)⟩

/-! ## C13: one configured action -/

/-- C13. For every packet whose L3 base header passes the bounds check, each of the four
layer-3 parsers returns the configured action `XDPACTION`, whatever the table holds
and whatever the packet carries behind the header: entry created, entry updated,
protocol not recognised, L4 header too short, table full. -/
theorem c13_configured_action_returned (M A : Nat) (P : L3) (ctx : Packet) (kt : Nat)
    (s : State) (hl3 : P.l4_offset ≤ ctx.length) :
    (P.prog M A ctx kt s).1 = A := by
  rw [L3.prog_eq, if_neg (by omega)]
  split <;> rfl

/-- Witness of C13: with `XDPACTION = XDP_PASS`, `parse_ipv4_flows0` returns `XDP_PASS`
when the 100-byte TCP packet creates an entry, updates one, and finds a table of
capacity 1 full, on the GRE packet and on the 54-byte TCP packet. -/
theorem c13_configured_action_returned_witness :
    (parse_ipv4_flows0 8 XDP_PASS (tcp_packet 46) 5 State.empty).1 = XDP_PASS
      ∧ (parse_ipv4_flows0 8 XDP_PASS (tcp_packet 46) 5 State.one_tcp_flow).1 = XDP_PASS
      ∧ (parse_ipv4_flows0 1 XDP_PASS (tcp_packet 46) 5 State.one_udp_flow).1 = XDP_PASS
      ∧ (parse_ipv4_flows0 8 XDP_PASS gre_packet 5 State.empty).1 = XDP_PASS
      ∧ (parse_ipv4_flows0 8 XDP_PASS (tcp_packet 0) 5 State.empty).1 = XDP_PASS :=
  ⟨c13_configured_action_returned 8 XDP_PASS .ipv4_flows0 (tcp_packet 46) 5 State.empty
      (by decide),
   c13_configured_action_returned 8 XDP_PASS .ipv4_flows0 (tcp_packet 46) 5
      State.one_tcp_flow (by decide),
   c13_configured_action_returned 1 XDP_PASS .ipv4_flows0 (tcp_packet 46) 5
      State.one_udp_flow (by decide),
   c13_configured_action_returned 8 XDP_PASS .ipv4_flows0 gre_packet 5 State.empty (by decide),
   c13_configured_action_returned 8 XDP_PASS .ipv4_flows0 (tcp_packet 0) 5 State.empty
      (by decide)⟩

/-! ## C14, C18: the update of an existing entry -/

theorem flow_upsert_length_old (M : Nat) (t : Table) (p : flow_attrs) (kt len : Nat)
    (a : flow_accms) (ha : t.lookup p = some a) :
    (flow_upsert M t p kt len).length = t.length := by
  simp [flow_upsert, lookup_or_try_init, ha, Table.length_update]

theorem mod_u32_u16 (n : Nat) : n % 2 ^ 32 % 2 ^ 16 = n % 2 ^ 16 :=
  Nat.mod_mod_of_dvd n (by decide : 2 ^ 16 ∣ 2 ^ 32)

/-- C14, as amended. For every packet that a layer-3 parser classifies to a key `k`
already present in its table, the parser returns `XDPACTION` and changes only the
entry of `k`: `packets` becomes `packets + 1`, `bytes` becomes `bytes` plus the
packet length reduced modulo `2 ^ 16`, `end` becomes `now + 1`, each in 64-bit
unsigned arithmetic, `start` is kept; every other key has the entry it had, and the
table has as many entries as before. When the packet is shorter than 65536 bytes
and no 64-bit field wraps, the new entry is `start`, `now + 1`, `packets + 1`,
`bytes` + length. -/
theorem c14_update_changes_one_entry (M A : Nat) (P : L3) (ctx : Packet) (kt : Nat)
    (s : State) (k : flow_attrs) (a : flow_accms)
    (hk : P.key ctx = some k) (ha : (P.table s).lookup k = some a) :
    (P.prog M A ctx kt s).1 = A
      ∧ (P.table (P.prog M A ctx kt s).2).lookup k
          = some ⟨a.start, (kt % 2 ^ 64 + 1) % 2 ^ 64, (a.packets + 1) % 2 ^ 64,
              (a.bytes + ctx.length % 2 ^ 16) % 2 ^ 64⟩
      ∧ (∀ k', k' ≠ k →
          (P.table (P.prog M A ctx kt s).2).lookup k' = (P.table s).lookup k')
      ∧ (P.table (P.prog M A ctx kt s).2).length = (P.table s).length
      ∧ (ctx.length < 2 ^ 16 → kt < 2 ^ 64 - 1 → a.packets < 2 ^ 64 - 1 →
          a.bytes + ctx.length < 2 ^ 64 →
          (P.table (P.prog M A ctx kt s).2).lookup k
            = some ⟨a.start, kt + 1, a.packets + 1, a.bytes + ctx.length⟩) := by
  have hlook : (P.table (P.prog M A ctx kt s).2).lookup k
      = some ⟨a.start, (kt % 2 ^ 64 + 1) % 2 ^ 64, (a.packets + 1) % 2 ^ 64,
          (a.bytes + ctx.length % 2 ^ 16) % 2 ^ 64⟩ := by
    rw [L3.prog_of_key M A P ctx kt s k hk, L3.table_set_table,
      flow_upsert_lookup_old M _ k kt ctx.length a ha]
    simp only [accms_bump, mod_u32_u16]
  refine ⟨by rw [L3.prog_of_key M A P ctx kt s k hk], hlook, fun k' hne => ?_, ?_, ?_⟩
  · rw [L3.prog_of_key M A P ctx kt s k hk, L3.table_set_table,
      flow_upsert_lookup_ne M _ k k' kt ctx.length hne]
  · rw [L3.prog_of_key M A P ctx kt s k hk, L3.table_set_table,
      flow_upsert_length_old M _ k kt ctx.length a ha]
  · intro h16 hkt hp hb
    rw [hlook, Nat.mod_eq_of_lt h16, Nat.mod_eq_of_lt (by omega : kt < 2 ^ 64),
      Nat.mod_eq_of_lt (by omega : kt + 1 < 2 ^ 64),
      Nat.mod_eq_of_lt (by omega : a.packets + 1 < 2 ^ 64), Nat.mod_eq_of_lt hb]

/-- Witness of C14: a second 60-byte packet of the UDP flow at clock reading 100. -/
theorem c14_update_changes_one_entry_witness :
    (parse_ipv4_flows0 8 XDP_PASS (udp_packet 18) 100 State.one_udp_flow).1 = XDP_PASS
      ∧ (parse_ipv4_flows0 8 XDP_PASS (udp_packet 18) 100 State.one_udp_flow).2.flows0.lookup
          udp_key = some ⟨10, 101, 2, 120⟩ :=
  ⟨(c14_update_changes_one_entry 8 XDP_PASS .ipv4_flows0 (udp_packet 18) 100
      State.one_udp_flow udp_key ⟨10, 21, 1, 60⟩ (by decide) (by decide)).1,
   (c14_update_changes_one_entry 8 XDP_PASS .ipv4_flows0 (udp_packet 18) 100
      State.one_udp_flow udp_key ⟨10, 21, 1, 60⟩ (by decide) (by decide)).2.2.2.2
        (by decide) (by decide) (by decide) (by decide)⟩

/-- Counterexample to C14 as stated. First, a 65549-byte packet of a flow whose entry
has `bytes = 60` leaves `bytes = 73`: the counter grows by 13, not by the packet
length. Second, at the clock reading `2 ^ 64 - 1` the entry gets `end = 0`, not
`now + 1`. -/
theorem c14_counterexample :
    ((udp_packet 65507).length = 65549
        ∧ ipv4_key (udp_packet 65507) = some udp_key
        ∧ State.one_udp_flow.flows0.lookup udp_key = some ⟨10, 21, 1, 60⟩
        ∧ (parse_ipv4_flows0 8 XDP_DROP (udp_packet 65507) 100
            State.one_udp_flow).2.flows0.lookup udp_key = some ⟨10, 101, 2, 73⟩)
      ∧ (ipv4_key (udp_packet 18) = some udp_key
        ∧ (parse_ipv4_flows0 8 XDP_DROP (udp_packet 18) (2 ^ 64 - 1)
            State.one_udp_flow).2.flows0.lookup udp_key = some ⟨10, 0, 2, 120⟩) := by
  have hlen : (udp_packet 65507).length = 65549 := udp_packet_length 65507
  have hkey : ipv4_key (udp_packet 65507) = some udp_key := udp_packet_key 65507 (by decide)
  refine ⟨⟨hlen, hkey, by decide, ?_⟩, by decide, by decide⟩
  rw [parse_ipv4_flows0_eq, hlen, hkey]
  decide

/-- C18. For every packet a layer-3 parser classifies to a key `k`: when `k` has an
entry, its `bytes` afterwards is the previous `bytes` plus the packet length
reduced modulo `2 ^ 16` (the sum taken in 64 bits); when `k` has none and the table
has room, the new entry has `bytes` = the packet length modulo `2 ^ 16`. The
reduced length equals the length exactly when the length is below 65536. -/
theorem c18_bytes_added_modulo_65536 (M A : Nat) (P : L3) (ctx : Packet) (kt : Nat)
    (s : State) (k : flow_attrs) (hk : P.key ctx = some k) :
    (∀ a, (P.table s).lookup k = some a →
        ∃ a', (P.table (P.prog M A ctx kt s).2).lookup k = some a'
          ∧ a'.bytes = (a.bytes + ctx.length % 2 ^ 16) % 2 ^ 64)
      ∧ ((P.table s).lookup k = none → (P.table s).length < M →
        ∃ a', (P.table (P.prog M A ctx kt s).2).lookup k = some a'
          ∧ a'.bytes = ctx.length % 2 ^ 16)
      ∧ (ctx.length % 2 ^ 16 = ctx.length ↔ ctx.length < 2 ^ 16) := by
  refine ⟨fun a ha => ?_, fun hn hroom => ?_, ?_⟩
  · refine ⟨accms_bump kt ctx.length a, ?_, ?_⟩
    · rw [L3.prog_of_key M A P ctx kt s k hk, L3.table_set_table,
        flow_upsert_lookup_old M _ k kt ctx.length a ha]
    · simp only [accms_bump, mod_u32_u16]
  · refine ⟨accms_bump kt ctx.length ⟨kt % 2 ^ 64, 0, 0, 0⟩, ?_, ?_⟩
    · rw [L3.prog_of_key M A P ctx kt s k hk, L3.table_set_table,
        flow_upsert_lookup_new M _ k kt ctx.length hn hroom]
    · simp only [accms_bump, mod_u32_u16, Nat.zero_add]
      have : ctx.length % 2 ^ 16 < 2 ^ 16 := Nat.mod_lt _ (by decide)
      exact Nat.mod_eq_of_lt (by omega)
  · constructor
    · intro h
      rw [← h]
      exact Nat.mod_lt _ (by decide)
    · exact Nat.mod_eq_of_lt

/-- Witness of C18: a 60-byte UDP packet on an entry with `bytes = 60`, and on an empty
table. -/
theorem c18_bytes_added_modulo_65536_witness :
    (∃ a', (parse_ipv4_flows1 8 XDP_DROP (udp_packet 18) 100 State.one_udp_flow).2.flows1.lookup
          udp_key = some a' ∧ a'.bytes = (60 + (udp_packet 18).length % 2 ^ 16) % 2 ^ 64)
      ∧ (∃ a', (parse_ipv4_flows1 8 XDP_DROP (udp_packet 18) 100 State.empty).2.flows1.lookup
          udp_key = some a' ∧ a'.bytes = (udp_packet 18).length % 2 ^ 16) :=
  ⟨(c18_bytes_added_modulo_65536 8 XDP_DROP .ipv4_flows1 (udp_packet 18) 100
      State.one_udp_flow udp_key (by decide)).1 ⟨10, 21, 1, 60⟩ (by decide),
   (c18_bytes_added_modulo_65536 8 XDP_DROP .ipv4_flows1 (udp_packet 18) 100
      State.empty udp_key (by decide)).2.1 (by decide) (by decide)⟩

/-! ## C15, C16: the strict L4 check and the ICMP key -/

theorem l4_key_isSome_iff (p : flow_attrs) (ctx : Packet) (offset proto : Nat)
    (hproto : proto = ICMP ∨ proto = TCP ∨ proto = UDP) :
    (l4_key p ctx offset proto).isSome ↔ offset + l4_header_size proto < ctx.length := by
  rcases hproto with rfl | rfl | rfl
  · by_cases h : offset + sizeof_icmphdr < ctx.length
    · simp [l4_key, l4_header_size, h]
    · simp [l4_key, l4_header_size, h]
  · by_cases h : offset + sizeof_tcphdr < ctx.length
    · simp [l4_key, l4_header_size, h]
    · simp [l4_key, l4_header_size, h]
  · by_cases h : offset + sizeof_udphdr < ctx.length
    · simp [l4_key, l4_header_size, h]
    · simp [l4_key, l4_header_size, h]

/-- A parser derives a key for a packet of protocol ICMP, TCP or UDP exactly when the
L4 header ends strictly before the end of the packet. -/
theorem L3.key_isSome_iff (P : L3) (ctx : Packet)
    (hproto : byte_at ctx P.proto_offset = ICMP ∨ byte_at ctx P.proto_offset = TCP
      ∨ byte_at ctx P.proto_offset = UDP) :
    (P.key ctx).isSome
      ↔ P.l4_offset + l4_header_size (byte_at ctx P.proto_offset) < ctx.length := by
  cases P <;> simp only [L3.key, L3.l4_offset, L3.proto_offset, ipv4_key, ipv6_key] at * <;>
    split_ifs with hs <;>
    first
      | (simp only [Option.isSome_none, Bool.false_eq_true, false_iff]; omega)
      | exact l4_key_isSome_iff _ ctx _ _ hproto

/-- C15. For every layer-3 parser and every packet whose next-protocol byte is ICMP,
TCP or UDP, with L4 header size 8, 20 or 8: the parser derives a key if and only
if the packet is strictly longer than the L4 offset (34 for IPv4, 54 for IPv6)
plus that size; when it derives a key and the key is present or the table has
room, the key has an entry afterwards; a packet that ends exactly at the end of
its L4 header gets no key and changes nothing. The L3 check accepts a base header
that ends exactly at the end of the packet (the parser returns `XDPACTION`, not
the `XDP_DROP` of the bounds check), and `xdp_parser` accepts a 14-byte frame and
dispatches it. -/
theorem c15_l4_check_is_strict (M A : Nat) (P : L3) (ctx : Packet) (kt : Nat) (s : State) :
    (byte_at ctx P.proto_offset = ICMP ∨ byte_at ctx P.proto_offset = TCP
        ∨ byte_at ctx P.proto_offset = UDP →
      ((P.key ctx).isSome
          ↔ P.l4_offset + l4_header_size (byte_at ctx P.proto_offset) < ctx.length)
        ∧ (∀ k, P.key ctx = some k →
            (P.table s).lookup k ≠ none ∨ (P.table s).length < M →
            ((P.table (P.prog M A ctx kt s).2).lookup k).isSome)
        ∧ (ctx.length = P.l4_offset + l4_header_size (byte_at ctx P.proto_offset) →
            P.key ctx = none ∧ P.prog M A ctx kt s = (A, s)))
      ∧ (ctx.length = P.l4_offset → P.prog M A ctx kt s = (A, s))
      ∧ (ctx.length = sizeof_ethhdr → be16_at ctx 12 = ETH_P_IP →
          ∀ (parse_layer3 : ProgArray) (p4 : Prog), parse_layer3 4 = some p4 →
            xdp_parser_prog parse_layer3 ctx kt s = p4 ctx kt s) := by
  refine ⟨fun hproto => ⟨L3.key_isSome_iff P ctx hproto, fun k hk hcap => ?_, fun hlen => ?_⟩,
    fun hlen => ?_, fun hlen he arr p4 h4 => ?_⟩
  · rw [L3.prog_of_key M A P ctx kt s k hk, L3.table_set_table]
    cases hl : (P.table s).lookup k with
    | some a => rw [flow_upsert_lookup_old M _ k kt ctx.length a hl]; rfl
    | none =>
      have hroom : (P.table s).length < M := by
        rcases hcap with h | h
        · exact absurd hl h
        · exact h
      rw [flow_upsert_lookup_new M _ k kt ctx.length hl hroom]; rfl
  · have hnone : P.key ctx = none := L3.key_eq_none P ctx (fun _ => by omega)
    exact ⟨hnone, L3.prog_of_no_key M A P ctx kt s (by omega) hnone⟩
  · have hnone : P.key ctx = none := L3.key_eq_none P ctx (fun _ => by omega)
    exact L3.prog_of_no_key M A P ctx kt s (by omega) hnone
  · have h1 : ¬ (sizeof_ethhdr > ctx.length) := by omega
    simp only [xdp_parser_prog, h1, he, if_false, if_true]
    exact tail_call_of_some arr 4 p4 ctx kt s _ (by decide) h4

/-- Witness of C15: the 54-byte TCP packet gets no key and changes nothing, the 55-byte
one gets an entry; the 34-byte frame is answered with `XDPACTION`, and the 14-byte
frame is dispatched to slot 4. -/
theorem c15_l4_check_is_strict_witness :
    (ipv4_key (tcp_packet 0) = none
        ∧ parse_ipv4_flows0 8 XDP_PASS (tcp_packet 0) 5 State.empty = (XDP_PASS, State.empty))
      ∧ ((parse_ipv4_flows0 8 XDP_PASS (tcp_packet 1) 5 State.empty).2.flows0.lookup
          tcp_key).isSome
      ∧ parse_ipv4_flows0 8 XDP_PASS bare_ipv4_packet 5 State.empty = (XDP_PASS, State.empty)
      ∧ xdp_parser_prog (wiring_flows0.array 8 XDP_PASS) bare_eth_packet 5 State.empty
          = parse_ipv4_flows0 8 XDP_PASS bare_eth_packet 5 State.empty :=
  ⟨((c15_l4_check_is_strict 8 XDP_PASS .ipv4_flows0 (tcp_packet 0) 5 State.empty).1
      (by decide)).2.2 (by decide),
   ((c15_l4_check_is_strict 8 XDP_PASS .ipv4_flows0 (tcp_packet 1) 5 State.empty).1
      (by decide)).2.1 tcp_key (by decide) (by decide),
   (c15_l4_check_is_strict 8 XDP_PASS .ipv4_flows0 bare_ipv4_packet 5 State.empty).2.1
      (by decide),
   (c15_l4_check_is_strict 8 XDP_PASS .ipv4_flows0 bare_eth_packet 5 State.empty).2.2
      (by decide) (by decide) (wiring_flows0.array 8 XDP_PASS)
      (parse_ipv4_flows0 8 XDP_PASS) rfl⟩

/-- C16, as amended. For every ICMP packet with complete headers, no IPv4 options (the
ICMP header starts right behind the fixed-size L3 base header) and at least one
byte behind the 8-byte ICMP header, a layer-3 parser derives a key, and that key
has `l4_proto = 1`, `src_port` with the ICMP message type in its upper byte and
zero in its lower byte, and `dst_port` with the ICMP message code in its upper byte
and zero in its lower byte. -/
theorem c16_icmp_key_layout (P : L3) (ctx : Packet)
    (hproto : byte_at ctx P.proto_offset = ICMP)
    (hopt : P.l4_start ctx = P.l4_offset)
    (hlen : P.l4_offset + sizeof_icmphdr < ctx.length) :
    ∃ k, P.key ctx = some k
      ∧ k.l4_proto = 1
      ∧ k.src_port / 256 = P.icmp_type ctx ∧ k.src_port % 256 = 0
      ∧ k.dst_port / 256 = P.icmp_code ctx ∧ k.dst_port % 256 = 0
      ∧ k.src_port < 2 ^ 16 ∧ k.dst_port < 2 ^ 16 := by
  have hiff := L3.key_isSome_iff P ctx (Or.inl hproto)
  have hsize : l4_header_size (byte_at ctx P.proto_offset) = sizeof_icmphdr := by
    rw [hproto]; rfl
  rw [hsize] at hiff
  obtain ⟨k, hk⟩ := Option.isSome_iff_exists.mp (hiff.mpr hlen)
  obtain ⟨h1, h2, h3⟩ := L3.key_icmp P ctx k hproto hlen hk
  have b1 : byte_at ctx P.l4_offset < 256 := Nat.mod_lt _ (by decide)
  have b2 : byte_at ctx (P.l4_offset + 1) < 256 := Nat.mod_lt _ (by decide)
  refine ⟨k, hk, h1, ?_⟩
  simp only [L3.icmp_type, L3.icmp_code, hopt]
  rw [h2, h3]
  refine ⟨?_, ?_, ?_, ?_, ?_, ?_⟩ <;> omega

/-- Witness of C16: the 98-byte echo request (type 8, code 0) without IPv4 options. -/
theorem c16_icmp_key_layout_witness :
    L3.icmp_type .ipv4_flows0 (icmp_packet 8 56) = 8
      ∧ L3.icmp_code .ipv4_flows0 (icmp_packet 8 56) = 0
      ∧ ipv4_key (icmp_packet 8 56) = some (icmp_key 8)
      ∧ ∃ k, L3.key .ipv4_flows0 (icmp_packet 8 56) = some k
          ∧ k.l4_proto = 1
          ∧ k.src_port / 256 = L3.icmp_type .ipv4_flows0 (icmp_packet 8 56)
          ∧ k.src_port % 256 = 0
          ∧ k.dst_port / 256 = L3.icmp_code .ipv4_flows0 (icmp_packet 8 56)
          ∧ k.dst_port % 256 = 0
          ∧ k.src_port < 2 ^ 16 ∧ k.dst_port < 2 ^ 16 :=
  ⟨by decide, by decide, by decide,
   c16_icmp_key_layout .ipv4_flows0 (icmp_packet 8 56) (by decide) (by decide) (by decide)⟩

/-- Counterexample to C16 as stated. First, a 98-byte echo request with one IPv4 option
word holds all headers in full and has ICMP type 8 at offset 38, yet the key
derived for it has `src_port = 256`: its upper byte is the option byte 1 read at
offset 34, not the ICMP type. Second, a 42-byte echo request holds the Ethernet,
IPv4 and ICMP headers in full and no key is derived for it. -/
theorem c16_counterexample :
    ((icmp_packet_nop 8 52).length = 98
        ∧ be16_at (icmp_packet_nop 8 52) 12 = ETH_P_IP
        ∧ byte_at (icmp_packet_nop 8 52) 23 = ICMP
        ∧ L3.l4_start .ipv4_flows0 (icmp_packet_nop 8 52) = 38
        ∧ L3.icmp_type .ipv4_flows0 (icmp_packet_nop 8 52) = 8
        ∧ ipv4_key (icmp_packet_nop 8 52)
            = some ⟨ETH_P_IP, ICMP, 0x0A000001, 0x0A000002, 256, 256⟩
        ∧ (256 : Nat) / 256 ≠ L3.icmp_type .ipv4_flows0 (icmp_packet_nop 8 52))
      ∧ ((icmp_packet 8 0).length = sizeof_ethhdr + sizeof_iphdr + sizeof_icmphdr
        ∧ byte_at (icmp_packet 8 0) 23 = ICMP
        ∧ L3.l4_start .ipv4_flows0 (icmp_packet 8 0) = 34
        ∧ L3.icmp_type .ipv4_flows0 (icmp_packet 8 0) = 8
        ∧ ipv4_key (icmp_packet 8 0) = none) := by
  decide

/-! ## C17: the two buffers run the same code -/

/-- C17. For every packet, clock reading and table contents `T`, whatever the other
table and the trace hold: `parse_ipv4_flows0` with `flows0 = T` and
`parse_ipv4_flows1` with `flows1 = T` return the same action and leave the same
contents in `flows0` and in `flows1` respectively; likewise `parse_ipv6_flows0` and
`parse_ipv6_flows1`. -/
theorem c17_buffer_variants_agree (M A : Nat) (ctx : Packet) (kt : Nat) (T X Y : Table)
    (tr tr' : List String) :
    ((parse_ipv4_flows0 M A ctx kt ⟨T, X, tr⟩).1 = (parse_ipv4_flows1 M A ctx kt ⟨Y, T, tr'⟩).1
        ∧ (parse_ipv4_flows0 M A ctx kt ⟨T, X, tr⟩).2.flows0
            = (parse_ipv4_flows1 M A ctx kt ⟨Y, T, tr'⟩).2.flows1)
      ∧ ((parse_ipv6_flows0 M A ctx kt ⟨T, X, tr⟩).1
            = (parse_ipv6_flows1 M A ctx kt ⟨Y, T, tr'⟩).1
        ∧ (parse_ipv6_flows0 M A ctx kt ⟨T, X, tr⟩).2.flows0
            = (parse_ipv6_flows1 M A ctx kt ⟨Y, T, tr'⟩).2.flows1) := by
  rw [parse_ipv4_flows0_eq, parse_ipv4_flows1_eq, parse_ipv6_flows0_eq, parse_ipv6_flows1_eq]
  constructor
  · split_ifs
    · exact ⟨rfl, rfl⟩
    · cases ipv4_key ctx <;> exact ⟨rfl, rfl⟩
  · split_ifs
    · exact ⟨rfl, rfl⟩
    · cases ipv6_key ctx <;> exact ⟨rfl, rfl⟩

/-! ## C19: ICMPv6 -/

theorem l4_key_proto (p : flow_attrs) (ctx : Packet) (offset proto : Nat) (k : flow_attrs)
    (hk : l4_key p ctx offset proto = some k) : k.l4_proto = proto := by
  unfold l4_key at hk
  split_ifs at hk with h1 h2 h3 <;> cases hk
  · exact h1.1.symm
  · exact h2.1.symm
  · exact h3.1.symm

/-- C19, as amended. For every IPv6 packet whose next-header byte is 58 (ICMPv6), of
any length, `parse_ipv6_flows0` and `parse_ipv6_flows1` derive no key and leave the
state unchanged; and an IPv6 packet gets a key with `l4_proto = ICMP` exactly when
its next-header byte is 1 and it is longer than `14 + 40 + 8` bytes. -/
theorem c19_icmpv6_not_classified (M A : Nat) (ctx : Packet) (kt : Nat) (s : State) :
    (byte_at ctx 20 = 58 →
        ipv6_key ctx = none
          ∧ (parse_ipv6_flows0 M A ctx kt s).2 = s
          ∧ (parse_ipv6_flows1 M A ctx kt s).2 = s)
      ∧ ((∃ k, ipv6_key ctx = some k ∧ k.l4_proto = ICMP)
          ↔ (byte_at ctx 20 = ICMP
              ∧ sizeof_ethhdr + sizeof_ipv6hdr + sizeof_icmphdr < ctx.length)) := by
  constructor
  · intro h58
    have hnone : ipv6_key ctx = none := by
      unfold ipv6_key
      split_ifs
      · rfl
      · exact l4_key_eq_none _ ctx _ _ (fun h => by rw [h58] at h; simp at h)
    refine ⟨hnone, ?_, ?_⟩
    · rw [parse_ipv6_flows0_eq, hnone]
      split_ifs <;> rfl
    · rw [parse_ipv6_flows1_eq, hnone]
      split_ifs <;> rfl
  · constructor
    · rintro ⟨k, hk, hproto⟩
      unfold ipv6_key at hk
      split_ifs at hk with hs
      have hp := l4_key_proto _ ctx _ _ k hk
      rw [hproto] at hp
      have hsome := (l4_key_isSome_iff _ ctx 54 _ (Or.inl hp.symm)).mp (by rw [hk]; rfl)
      rw [← hp] at hsome
      exact ⟨hp.symm, hsome⟩
    · rintro ⟨hp, hlen⟩
      have hk : ipv6_key ctx = l4_key ⟨ETH_P_IPV6, 0, be32_at ctx 22, be32_at ctx 38, 0, 0⟩
          ctx 54 ICMP := by
        unfold ipv6_key
        rw [if_neg (by omega), hp]
      rw [l4_key_icmp _ ctx 54 hlen] at hk
      exact ⟨_, hk, rfl⟩

/-- Witness of C19: a 118-byte ICMPv6 echo request (next header 58, type 128) against
tables that hold a flow, and a 118-byte IPv6 packet with next header 1. -/
theorem c19_icmpv6_not_classified_witness :
    (ipv6_key (icmp6_packet 58 128 56) = none
        ∧ (parse_ipv6_flows0 8 XDP_PASS (icmp6_packet 58 128 56) 5 State.one_tcp_flow).2
            = State.one_tcp_flow
        ∧ (parse_ipv6_flows1 8 XDP_PASS (icmp6_packet 58 128 56) 5 State.one_tcp_flow).2
            = State.one_tcp_flow)
      ∧ ∃ k, ipv6_key (icmp6_packet 1 8 56) = some k ∧ k.l4_proto = ICMP :=
  ⟨(c19_icmpv6_not_classified 8 XDP_PASS (icmp6_packet 58 128 56) 5 State.one_tcp_flow).1
      (by decide),
   (c19_icmpv6_not_classified 8 XDP_PASS (icmp6_packet 1 8 56) 5 State.one_tcp_flow).2.mpr
      ⟨by decide, by decide⟩⟩

/-- Counterexample to C19 as stated: a 62-byte IPv6 packet (Ethernet, IPv6 base header
and a complete 8-byte ICMP header) has next-header byte 1 and yet is not
classified as ICMP: no key is derived and the table is left as it was. -/
theorem c19_counterexample :
    (icmp6_packet 1 8 0).length = sizeof_ethhdr + sizeof_ipv6hdr + sizeof_icmphdr
      ∧ be16_at (icmp6_packet 1 8 0) 12 = ETH_P_IPV6
      ∧ byte_at (icmp6_packet 1 8 0) 20 = 1
      ∧ ipv6_key (icmp6_packet 1 8 0) = none
      ∧ parse_ipv6_flows0 8 XDP_PASS (icmp6_packet 1 8 0) 5 State.empty
          = (XDP_PASS, State.empty) := by
  decide

/-! ## C20: what the IPv4 key depends on -/

/-- C20. Any two packets of equal length that agree on byte 23 (protocol) and on bytes
26..37 (the two addresses and the four bytes at the fixed L4 offset 34) get the
same key from the IPv4 parsers, whatever their Ethernet header, their IPv4
header-length field and their other bytes; on every state and clock reading
`parse_ipv4_flows0` and `parse_ipv4_flows1` then do with the one packet what they
do with the other. -/
theorem c20_ipv4_key_inputs (ctx1 ctx2 : Packet) (hlen : ctx1.length = ctx2.length)
    (hsame : ∀ i, i = 23 ∨ (26 ≤ i ∧ i ≤ 37) → byte_at ctx1 i = byte_at ctx2 i) :
    ipv4_key ctx1 = ipv4_key ctx2
      ∧ (∀ M A kt s, parse_ipv4_flows0 M A ctx1 kt s = parse_ipv4_flows0 M A ctx2 kt s)
      ∧ (∀ M A kt s, parse_ipv4_flows1 M A ctx1 kt s = parse_ipv4_flows1 M A ctx2 kt s) := by
  have hkey : ipv4_key ctx1 = ipv4_key ctx2 := by
    simp only [ipv4_key, l4_key, be32_at, be16_at, Nat.reduceAdd, hlen,
      hsame 23 (by omega), hsame 26 (by omega), hsame 27 (by omega), hsame 28 (by omega),
      hsame 29 (by omega), hsame 30 (by omega), hsame 31 (by omega), hsame 32 (by omega),
      hsame 33 (by omega), hsame 34 (by omega), hsame 35 (by omega), hsame 36 (by omega),
      hsame 37 (by omega)]
  refine ⟨hkey, fun M A kt s => ?_, fun M A kt s => ?_⟩
  · rw [parse_ipv4_flows0_eq, parse_ipv4_flows0_eq, hkey, hlen]
  · rw [parse_ipv4_flows1_eq, parse_ipv4_flows1_eq, hkey, hlen]

theorem tcp_packets_agree (i : Nat) (hi : i = 23 ∨ (26 ≤ i ∧ i ≤ 37)) :
    byte_at (tcp_packet 46) i = byte_at tcp_packet_options i := by
  rcases hi with rfl | ⟨h1, h2⟩
  · rfl
  · interval_cases i <;> rfl

/-- Witness of C20: the 100-byte TCP packet and a 100-byte frame with other MAC
addresses, header-length field 6 and other header and payload bytes get the same
key, with the ports read at offset 34, and the same treatment. -/
theorem c20_ipv4_key_inputs_witness :
    tcp_packet 46 ≠ tcp_packet_options
      ∧ byte_at (tcp_packet 46) 14 = 0x45 ∧ byte_at tcp_packet_options 14 = 0x46
      ∧ ipv4_key tcp_packet_options = some tcp_key
      ∧ ipv4_key (tcp_packet 46) = ipv4_key tcp_packet_options
      ∧ parse_ipv4_flows0 8 XDP_DROP (tcp_packet 46) 5 State.one_udp_flow
          = parse_ipv4_flows0 8 XDP_DROP tcp_packet_options 5 State.one_udp_flow :=
  ⟨by decide, by decide, by decide, by decide,
   (c20_ipv4_key_inputs (tcp_packet 46) tcp_packet_options (by decide) tcp_packets_agree).1,
   (c20_ipv4_key_inputs (tcp_packet 46) tcp_packet_options (by decide)
      tcp_packets_agree).2.1 8 XDP_DROP 5 State.one_udp_flow⟩

end Noobflow
